import Mathlib

/-!
# Verification of the web-grabber crawl orchestration engine

Shallow embedding of `src/web_grabber/cmd/grab/grab_handler.py` (class
`GrabHandler`) and `src/web_grabber/lib/browser_automation/base.py`
(class `BrowserAutomation`), together with the parts of
`src/web_grabber/lib/network/base.py` (class `NetworkHandler`) the
crawl engine consumes.

Python `set` objects are modelled as duplicate-free lists with
membership-guarded insertion preserved as in the source; Python strings
are Lean `String`s (ASCII case folding); the network, the HTML parser
and the filesystem contents are oracles packaged in a `Collab`
structure, while the set of files present on disk is tracked explicitly
in the crawl state.  The Python `ThreadPoolExecutor` wave loop is
modelled wave by wave: a batch is popped from the pending set and its
pages are processed in batch order (the scheduler waits for the whole
wave before forming the next one, which is the barrier the source
relies on).
-/

namespace WebGrabber

/-! ## String helpers (Python `str` operations used by the source) -/

/-- `startsL p l` : the character list `p` is an initial segment of `l`
(Python `str.startswith`). -/
def startsL : List Char → List Char → Bool
  | [], _ => true
  | _ :: _, [] => false
  | p :: ps, c :: cs => p == c && startsL ps cs

/-- `hasSubL p l` : `p` occurs as a contiguous sublist of `l`
(Python `in` on strings). -/
def hasSubL (p : List Char) : List Char → Bool
  | [] => startsL p []
  | c :: cs => startsL p (c :: cs) || hasSubL p cs

/-- Python `sub in s`. -/
def strHasSub (s sub : String) : Bool := hasSubL sub.data s.data

/-- Python `s.startswith(p)`. -/
def strStarts (s p : String) : Bool := startsL p.data s.data

/-- Python `s.endswith(p)`. -/
def strEnds (s p : String) : Bool := startsL p.data.reverse s.data.reverse

/-- First component of Python `s.split(sep)[0]` for a one-character
separator: everything before the first occurrence of `sep`. -/
def takeUntilChar (s : String) (sep : Char) : String :=
  ⟨s.data.takeWhile (· ≠ sep)⟩

/-- Python `url.split("#")[0]` applied only when a `#` is present
(`normalize_url`'s fragment stripping). -/
def stripFrag (s : String) : String :=
  if strHasSub s "#" then takeUntilChar s '#' else s

/-- Remove an element from a Python-set-modelling list. -/
def removeS (l : List String) (x : String) : List String :=
  l.filter (fun y => y ≠ x)

/-- Python `s.strip("/")`: remove `/` characters from both ends. -/
def stripSlashes (s : String) : String :=
  ⟨(s.data.dropWhile (· = '/')).reverse.dropWhile (· = '/') |>.reverse⟩

/-- Python `s.isdigit()` (ASCII): nonempty and all digits. -/
def strIsDigit (s : String) : Bool :=
  !s.data.isEmpty && s.data.all Char.isDigit

/-- Python `s.lower()` (ASCII). -/
def lowerStr (s : String) : String := ⟨s.data.map Char.toLower⟩

/-- Python whitespace test for `str.strip()`. -/
def isSpaceC (c : Char) : Bool :=
  c = ' ' || c = '\t' || c = '\n' || c = '\r' || c = '\x0b' || c = '\x0c'

/-- Python `s.strip()`. -/
def trimStr (s : String) : String :=
  ⟨(s.data.dropWhile isSpaceC).reverse.dropWhile isSpaceC |>.reverse⟩

/-- Splitting a character list on a separator character
(Python `s.split(sep)` for a one-character separator). -/
def splitCharL (sep : Char) : List Char → List (List Char)
  | [] => [[]]
  | c :: cs =>
    match splitCharL sep cs with
    | [] => [[]]
    | h :: t => if c == sep then [] :: h :: t else (c :: h) :: t

/-- Python `s.split(sep)` for a one-character separator. -/
def splitChar (sep : Char) (s : String) : List String :=
  (splitCharL sep s.data).map (fun l => ⟨l⟩)

/-- Python `sep.join(parts)` for a one-character separator. -/
def joinChar (sep : Char) : List String → String
  | [] => ""
  | [s] => s
  | s :: rest => s ++ ⟨[sep]⟩ ++ joinChar sep rest

/-- Replace every occurrence of a nonempty pattern (fuel-indexed to
stay structurally recursive); Python `s.replace(pat, rep)`. -/
def replaceLAux (pat rep : List Char) : Nat → List Char → List Char
  | 0, l => l
  | _ + 1, [] => []
  | fuel + 1, c :: cs =>
    if pat ≠ [] && startsL pat (c :: cs) then
      rep ++ replaceLAux pat rep fuel ((c :: cs).drop pat.length)
    else c :: replaceLAux pat rep fuel cs

/-- Python `s.replace(pat, rep)` (nonempty `pat`). -/
def replaceStr (s pat rep : String) : String :=
  ⟨replaceLAux pat.data rep.data s.data.length s.data⟩

/-- Decimal digits of a natural number (fuel-indexed). -/
def natDigitsAux : Nat → Nat → List Char
  | 0, _ => []
  | fuel + 1, n =>
    let d := Char.ofNat (48 + n % 10)
    if n < 10 then [d] else natDigitsAux fuel (n / 10) ++ [d]

/-- Python `str(n)` for a natural number. -/
def natToStr (n : Nat) : String := ⟨natDigitsAux 20 n⟩

/-- Python `os.path.basename`: the part of a path after the last `/`. -/
def basenameStr (p : String) : String :=
  ⟨(p.data.reverse.takeWhile (· ≠ '/')).reverse⟩

/-- The extension (with leading dot) of the last path component, after
`os.path.splitext` / `pathlib.PurePath.suffix`: the part from the last
dot, provided some earlier character of the component is not a dot. -/
def extOf (p : String) : String :=
  let b := (basenameStr p).data
  let lead := b.takeWhile (· = '.')
  let rest := b.drop lead.length
  if rest.contains '.' then
    ⟨'.' :: (rest.reverse.takeWhile (· ≠ '.')).reverse⟩
  else ""

/-- The last path component without its `extOf` extension
(`os.path.splitext` first component, restricted to the basename). -/
def rootOf (p : String) : String :=
  let b := basenameStr p
  ⟨b.data.take (b.data.length - (extOf p).data.length)⟩

/-! ## URL parsing (`urllib.parse.urlparse`, restricted to the shapes
the engine feeds it: absolute `http(s)` URLs, scheme-relative and
relative references) -/

/-- The `netloc` of a URL: the authority part, nonempty only when the
input starts with `//` or contains `://`. -/
def urlNetloc (url : String) : String :=
  let rest : Option String :=
    if strStarts url "//" then some ⟨url.data.drop 2⟩
    else if strHasSub url "://" then
      some ⟨url.data.drop ((takeUntilChar url ':').length + 3)⟩
    else none
  match rest with
  | some r => ⟨r.data.takeWhile (fun c => c ≠ '/' && c ≠ '?' && c ≠ '#')⟩
  | none => ""

/-- The `path` of a URL: what follows the authority, up to the query or
fragment.  For inputs without an authority the whole string up to the
query/fragment is the path. -/
def urlPath (url : String) : String :=
  let afterAuth :=
    if strStarts url "//" then
      ⟨(url.data.drop 2).dropWhile (fun c => c ≠ '/' && c ≠ '?' && c ≠ '#')⟩
    else if strHasSub url "://" then
      let r : String := ⟨url.data.drop ((takeUntilChar url ':').length + 3)⟩
      ⟨r.data.dropWhile (fun c => c ≠ '/' && c ≠ '?' && c ≠ '#')⟩
    else url
  ⟨afterAuth.data.takeWhile (fun c => c ≠ '?' && c ≠ '#')⟩

/-- The `scheme` of an absolute URL (empty when no `://` is present). -/
def urlScheme (url : String) : String :=
  if strHasSub url "://" then takeUntilChar url ':' else ""

/-! ## `BrowserAutomation.get_file_type` -/

def webExts : List String := ["html", "htm", "xhtml", "php", "asp", "aspx", "jsp"]

def imageExts : List String :=
  ["jpg", "jpeg", "png", "gif", "svg", "webp", "bmp", "ico", "tif", "tiff"]

def videoExts : List String :=
  ["mp4", "webm", "avi", "mov", "wmv", "flv", "mkv", "ogv", "m4v"]

def documentExts : List String :=
  ["pdf", "doc", "docx", "xls", "xlsx", "ppt", "pptx", "txt", "rtf", "csv",
   "odt", "ods", "odp", "epub", "mobi", "zip", "rar", "tar", "gz"]

/-- The path of the lowercased URL (`urlparse(url.lower()).path`). -/
def lowerPathOf (url : String) : String := urlPath (lowerStr url)

/-- The dot-stripped extension `get_file_type` extracts. -/
def pathExtOf (url : String) : String :=
  let e := extOf (lowerPathOf url)
  if strStarts e "." then ⟨e.data.drop 1⟩ else e

/-- `os.path.basename(path)` of the lowercased URL's path. -/
def pathFilenameOf (url : String) : String := basenameStr (lowerPathOf url)

/-- `BrowserAutomation.get_file_type` (base.py lines 239-329): classify a
URL as `"html"`, `"images"`, `"videos"` or `"documents"` from its
lowercased path extension, with the `.pdf` refinement. -/
def getFileType (url : String) : String :=
  if pathExtOf url = "" || webExts.contains (pathExtOf url) then "html"
  else if imageExts.contains (pathExtOf url) then "images"
  else if videoExts.contains (pathExtOf url) then "videos"
  else if documentExts.contains (pathExtOf url) then
    if pathExtOf url = "pdf" &&
        (strHasSub (lowerStr url) "resume" || strHasSub (lowerStr url) "cv" ||
         strHasSub (lowerStr url) "/documents/") then "documents"
    else if pathExtOf url ≠ "pdf" then "documents"
    else if strIsDigit (replaceStr (pathFilenameOf url) ".pdf" "") then "html"
    else "documents"
  else if strHasSub (lowerStr url) "/resume" || strHasSub (lowerStr url) "/cv" ||
      strHasSub (lowerStr url) "/documents/" then "documents"
  else "html"

/-! ## `BrowserAutomation.is_valid_url` (base.py lines 150-185) -/

/-- `is_valid_url(base_url, url)`: reject non-strings (`none`), empty
strings, anchors and `javascript:`/`mailto:`/`tel:` targets; accept
anything starting with `/`; otherwise require the netloc to equal the
base's netloc or be a subdomain of it. -/
def isValidUrl (baseUrl : String) : Option String → Bool
  | none => false
  | some url0 =>
    if url0 = "" then false
    else
      let url := trimStr url0
      if strStarts url "#" || strStarts url "javascript:" ||
          strStarts url "mailto:" || strStarts url "tel:" then false
      else if strStarts url "/" then true
      else
        let baseDomain := urlNetloc baseUrl
        let urlDomain := urlNetloc url
        urlDomain = baseDomain || strEnds urlDomain ("." ++ baseDomain)

/-! ## `urllib.parse.urljoin`

Modelled for the shapes `normalize_url` feeds it: an absolute `http(s)`
base and a fragment-free reference without a scheme (RFC 3986 §5.3
merge and remove-dot-segments, which CPython ≥ 3.6 follows). -/

/-- RFC 3986 remove-dot-segments over the `/`-separated segments of an
absolute path (first segment of the input list is the one after the
leading `/`); `stk` accumulates output segments in reverse. -/
def rdsSegs : List String → List String → List String
  | [], stk => stk.reverse
  | s :: rest, stk =>
    if s = "." then
      if rest = [] then ("" :: stk).reverse else rdsSegs rest stk
    else if s = ".." then
      let stk' := stk.tail
      if rest = [] then ("" :: stk').reverse else rdsSegs rest stk'
    else rdsSegs rest (s :: stk)

/-- Remove dot segments from an absolute path string. -/
def removeDotSegments (p : String) : String :=
  let segs := (splitChar '/' p).tail
  "/" ++ joinChar '/' (rdsSegs segs [])

/-- The directory part of a base path for RFC 3986 path merging:
everything up to and including the last `/` (the whole `ref` replaces
the last segment); `/` when the base path is empty. -/
def dirOf (p : String) : String :=
  if p = "" then "/"
  else ⟨(p.data.reverse.dropWhile (· ≠ '/')).reverse⟩

/-- `urllib.parse.urljoin(base, ref)` for an absolute `http(s)` base. -/
def urljoinM (base ref : String) : String :=
  if ref = "" then base
  else if strHasSub ref "://" then ref
  else if strStarts ref "//" then urlScheme base ++ ":" ++ ref
  else
    let scheme := urlScheme base
    let netloc := urlNetloc base
    let merged :=
      if strStarts ref "/" then ref else dirOf (urlPath base) ++ ref
    scheme ++ "://" ++ netloc ++ removeDotSegments merged

/-! ## `BrowserAutomation.normalize_url` (base.py lines 187-237) -/

/-- `normalize_url(base_url, url)`.  `none` models a non-string input
(`isinstance(url, str)` fails). -/
def normalizeUrl (baseUrl : String) : Option String → String
  | none => baseUrl
  | some url0 =>
    if url0 = "" then baseUrl
    else
      let url1 := trimStr url0
      if url1 = "" then baseUrl
      else
        let baseScheme := urlScheme baseUrl
        let baseNetloc := urlNetloc baseUrl
        let url := stripFrag url1
        if strStarts url "//" then baseScheme ++ ":" ++ url
        else if strStarts url "http://" || strStarts url "https://" then url
        else if strStarts url "/" then baseScheme ++ "://" ++ baseNetloc ++ url
        else if strStarts url "../" || strHasSub url "/../" then urljoinM baseUrl url
        else if !strHasSub url "://" then urljoinM baseUrl url
        else url

/-- `normalize_url` on a string input (the common case). -/
def normalizeUrlS (baseUrl url : String) : String := normalizeUrl baseUrl (some url)

/-! ## Content sniffing helpers of `GrabHandler` -/

/-- `GrabHandler._is_valid_html` (grab_handler.py lines 564-588): not
empty, not a PDF, and an HTML marker occurs in the first 1000
characters of the lowercased content. -/
def isValidHtmlB (content : String) : Bool :=
  if content = "" then false
  else if strStarts content "%PDF-" then false
  else
    let lower : String := ⟨(lowerStr content).data.take 1000⟩
    strHasSub lower "<!doctype html" || strHasSub lower "<html" ||
      strHasSub lower "<head" || strHasSub lower "<body"

/-! ## Downloaded-file contents and `validate_downloaded_file` -/

/-- Observable attributes of a downloaded artifact: its byte size and
the first kilobyte decoded with errors ignored (enough for the HTML
marker and `%PDF-` signature checks of the validator). -/
structure FileData where
  size : Nat
  head : String
  deriving Repr, DecidableEq

/-- First-kilobyte HTML sniff of `validate_downloaded_file`:
`content_start.strip().startswith(("<!doctype html", "<html"))` on the
lowercased head. -/
def fdStartsHtml (fd : FileData) : Bool :=
  let c := trimStr (lowerStr fd.head)
  strStarts c "<!doctype html" || strStarts c "<html"

/-- `%PDF-` signature check (first five bytes). -/
def fdPdfSig (fd : FileData) : Bool := strStarts fd.head "%PDF-"

/-- `BrowserAutomation.validate_downloaded_file` (base.py lines
442-516) on an existing file, returning `(valid, deleted)`.  `sfx` is
`file_path.suffix.lower()`. -/
def validateFile (fd : FileData) (resourceType sfx : String) : Bool × Bool :=
  if resourceType = "images" && fd.size < 100 then (false, true)
  else if (resourceType = "documents" || resourceType = "images" ||
      resourceType = "videos") && fd.size > 0 && fdStartsHtml fd then (false, true)
  else if resourceType = "documents" && sfx = ".pdf" && !fdPdfSig fd then (false, true)
  else (true, false)

/-! ## Crawl state and collaborators -/

/-- Add to a Python-set-modelling list (no-op when already present). -/
def addS (l : List String) (x : String) : List String :=
  if l.contains x then l else l ++ [x]

/-- The mutable state of `GrabHandler` during a run, plus the on-disk
file set and two ghost logs: `pageLog` records each URL that passes
`process_page`'s entry guard, `resLog` each resource URL for which
`_process_resources` starts a download attempt.  The logs do not feed
back into behaviour. -/
structure CrawlState where
  visited : List String
  toVisit : List String
  failed : List String
  countHtml : Nat
  countImages : Nat
  countDocuments : Nat
  countVideos : Nat
  fs : List String
  pageLog : List String
  resLog : List String
  deriving Repr, DecidableEq

/-- Immutable per-run configuration (`GrabHandler.setup` options and
the `crawl` thread count). -/
structure CrawlConfig where
  maxDepth : Nat
  restrictDomain : Bool
  resourcesFlag : Bool
  linksFlag : Bool
  threads : Nat
  deriving Repr, DecidableEq

/-- External collaborators: the fetch port, the raw `href` extraction
of BeautifulSoup, the network download outcome, the downloaded bytes
and the (Python `hash`-based) URL hash. -/
structure Collab where
  fetch : String → String × List (String × List String)
  hrefs : String → String → List String
  netSuccess : String → Bool
  fileData : String → FileData
  urlHash : String → Nat

/-- `BrowserAutomation.get_page_links` (base.py lines 331-352): filter
the raw hrefs through `is_valid_url` against the page URL, normalize
them, deduplicate. -/
def pageLinks (baseUrl : String) (rawHrefs : List String) : List String :=
  ((rawHrefs.filter (fun h => isValidUrl baseUrl (some h))).map
    (normalizeUrlS baseUrl)).eraseDups

/-- `GrabHandler._should_process_url` (grab_handler.py lines 213-250).
The domain restriction compares against `list(self.to_visit)[0]` — an
arbitrary element of the *current* pending set (modelled as its head),
or is skipped entirely when the pending set is empty. -/
def shouldProcess (cfg : CrawlConfig) (st : CrawlState) (url : String) : Bool :=
  if !(strStarts url "http://" || strStarts url "https://") then false
  else if st.visited.contains url then false
  else if cfg.maxDepth ≠ 0 && st.visited.length ≥ cfg.maxDepth then false
  else if cfg.restrictDomain then
    match st.toVisit.head? with
    | none => true
    | some initialUrl => urlNetloc url = urlNetloc initialUrl
  else true

/-- Increment `resource_count[rtype]`. -/
def incCount (st : CrawlState) (rtype : String) : CrawlState :=
  if rtype = "html" then { st with countHtml := st.countHtml + 1 }
  else if rtype = "images" then { st with countImages := st.countImages + 1 }
  else if rtype = "documents" then { st with countDocuments := st.countDocuments + 1 }
  else if rtype = "videos" then { st with countVideos := st.countVideos + 1 }
  else st

/-! ## `GrabHandler.download_file` (grab_handler.py lines 252-389) -/

/-- The resource type actually used: the re-detected type wins when it
differs and is not `"skip"`. -/
def dlType (url rtype0 : String) : String :=
  let detected := getFileType url
  if detected ≠ rtype0 && detected ≠ "skip" then detected else rtype0

/-- Extension allow-lists of `download_file`'s filename fixing. -/
def dlImageExts : List String :=
  [".jpg", ".jpeg", ".png", ".gif", ".svg", ".webp", ".bmp", ".ico"]

def dlVideoExts : List String :=
  [".mp4", ".webm", ".avi", ".mov", ".wmv", ".flv", ".mkv"]

def dlDocExts : List String :=
  [".pdf", ".doc", ".docx", ".xls", ".xlsx", ".txt"]

/-- Synthesized extension per resource type. -/
def defaultExtFor (rtype : String) : String :=
  if rtype = "images" then ".jpg"
  else if rtype = "videos" then ".mp4"
  else if rtype = "documents" then ".pdf"
  else ".html"

/-- `re.sub(r"[^\w\-.]", "_", filename)` (ASCII `\w`). -/
def sanitizeName (s : String) : String :=
  ⟨s.data.map (fun c =>
    if c.isAlphanum || c = '_' || c = '-' || c = '.' then c else '_')⟩

/-- The filename `download_file` derives for `url` saved as `rtype`
(the final, re-detected type). -/
def dlFilename (cb : Collab) (url rtype : String) : String :=
  let filename := basenameStr (urlPath url)
  let fixed :=
    if filename = "" || !strHasSub filename "." then
      natToStr (cb.urlHash url % 10000) ++ defaultExtFor rtype
    else
      let ext := lowerStr (extOf filename)
      if rtype = "images" && !dlImageExts.contains ext then
        takeUntilChar filename '.' ++ ".jpg"
      else if rtype = "videos" && !dlVideoExts.contains ext then
        takeUntilChar filename '.' ++ ".mp4"
      else if rtype = "documents" && !dlDocExts.contains ext then
        takeUntilChar filename '.' ++ ".pdf"
      else filename
  sanitizeName fixed

/-- `pathlib.PurePath.with_suffix`: replace (or append) the extension. -/
def withSuffix (p sfx : String) : String :=
  ⟨p.data.take (p.data.length - (extOf p).data.length)⟩ ++ sfx

/-- The destination path `download_file` resolves before the
exists-check. -/
def dlPath (cb : Collab) (url rtype0 : String) : String :=
  let rtype := dlType url rtype0
  let dir := if rtype = "html" then "html" else "files/" ++ rtype
  dir ++ "/" ++ dlFilename cb url rtype

/-- The path after `download_file`'s post-hoc rename of HTML content
saved without a `.html` suffix. -/
def dlFinalPath (cb : Collab) (url rtype0 : String) : String :=
  let rtype := dlType url rtype0
  let path := dlPath cb url rtype0
  if rtype = "html" && lowerStr (extOf path) ≠ ".html" then withSuffix path ".html"
  else path

/-- The branch structure of `download_file` over its precomputed
inputs: resolved path, rename target, network outcome and validation
verdict. -/
def dlStep (st : CrawlState) (url rtype path path2 : String)
    (success : Bool) (vd : Bool × Bool) : Bool × CrawlState :=
  if st.fs.contains path then (true, st)
  else if success then
    if vd.1 then (true, incCount { st with fs := addS st.fs path2 } rtype)
    else (false, { st with fs := removeS (addS st.fs path2) path2,
                           failed := addS st.failed url })
  else (false, { st with failed := addS st.failed url })

/-- `GrabHandler.download_file`: returns the success flag and the new
state.  A failed network download leaves no file behind; a successful
one writes `dlFinalPath`, which the validator may delete again. -/
def downloadFile (cb : Collab) (st : CrawlState) (url rtype0 : String) :
    Bool × CrawlState :=
  dlStep st url (dlType url rtype0) (dlPath cb url rtype0)
    (dlFinalPath cb url rtype0) (cb.netSuccess url)
    (validateFile (cb.fileData url) (dlType url rtype0)
      (lowerStr (extOf (dlFinalPath cb url rtype0))))

/-! ## `GrabHandler._save_html_content` (grab_handler.py lines 465-562) -/

def saveDocSuffixes : List String :=
  [".pdf", ".doc", ".docx", ".xls", ".xlsx", ".ppt", ".pptx"]

def saveImgSuffixes : List String :=
  [".jpg", ".jpeg", ".png", ".gif", ".webp", ".svg"]

def saveVidSuffixes : List String :=
  [".mp4", ".webm", ".avi", ".mov", ".wmv", ".flv"]

/-- The filename `_save_html_content` derives from the URL path before
extension fixing. -/
def saveFname0 (url : String) : String :=
  let pparts := splitChar '/' (stripSlashes (urlPath url))
  let lastPart := pparts.getLastD ""
  if pparts = [""] then "index.html"
  else if lastPart = "" || !strHasSub lastPart "." then
    (if lastPart ≠ "" then lastPart else "page") ++ ".html"
  else lastPart

/-- The branch structure of `_save_html_content` over its precomputed
inputs: the re-detected URL type `rt`, the content validity verdict
`vh`, the derived filename `fname0` and the URL hash `hsh`. -/
def saveHtmlCore (cb : Collab) (st : CrawlState) (url : String)
    (rt : String) (vh : Bool) (fname0 : String) (hsh : Nat) : CrawlState :=
  if rt ≠ "html" then (downloadFile cb st url rt).2
  else if !vh then (downloadFile cb st url "documents").2
  else
    let lf := lowerStr fname0
    if saveDocSuffixes.any (fun e => strEnds lf e) then
      (downloadFile cb st url "documents").2
    else if saveImgSuffixes.any (fun e => strEnds lf e) then
      (downloadFile cb st url "images").2
    else if saveVidSuffixes.any (fun e => strEnds lf e) then
      (downloadFile cb st url "videos").2
    else
      let fname1 :=
        if !(strEnds lf ".html" || strEnds lf ".htm") then
          (if strHasSub fname0 "." then takeUntilChar fname0 '.' else fname0) ++ ".html"
        else fname0
      let fname := sanitizeName fname1
      let path0 := "html/" ++ fname
      let path :=
        if st.fs.contains path0 then
          "html/" ++ rootOf fname ++ "_" ++ natToStr (hsh % 10000) ++ extOf fname
        else path0
      { st with fs := addS st.fs path, countHtml := st.countHtml + 1 }

/-- `GrabHandler._save_html_content`: re-route non-HTML URLs or
non-HTML content to `download_file`, otherwise derive a sanitized
`.html` filename from the URL path (hash-suffixed on collision), write
it and count it. -/
def saveHtml (cb : Collab) (st : CrawlState) (url html : String) : CrawlState :=
  saveHtmlCore cb st url (getFileType url) (isValidHtmlB html) (saveFname0 url)
    (cb.urlHash url)

/-! ## `GrabHandler._process_resources` and `_process_links`
(grab_handler.py lines 727-773) -/

/-- One resource of `_process_resources`: skip if already visited,
otherwise mark visited (recording the attempt in the ghost `resLog`)
and then download. -/
def processResource (cb : Collab) (rtype : String) (st : CrawlState)
    (u : String) : CrawlState :=
  if st.visited.contains u then st
  else
    (downloadFile cb
      { st with visited := addS st.visited u, resLog := st.resLog ++ [u] }
      u rtype).2

/-- `_process_resources`: the per-type URL lists in order. -/
def processResources (cb : Collab) (st0 : CrawlState)
    (resources : List (String × List String)) : CrawlState :=
  resources.foldl (fun st p => p.2.foldl (processResource cb p.1) st) st0

/-- One link of `_process_links`: queue it when it is neither visited
nor already pending and passes `_should_process_url`. -/
def processLink (cfg : CrawlConfig) (st : CrawlState) (l : String) :
    CrawlState :=
  if st.visited.contains l || st.toVisit.contains l then st
  else if shouldProcess cfg st l then { st with toVisit := st.toVisit ++ [l] }
  else st

/-- `_process_links` over the extracted link list. -/
def processLinks (cfg : CrawlConfig) (st0 : CrawlState)
    (links : List String) : CrawlState :=
  links.foldl (processLink cfg) st0

/-! ## `GrabHandler.process_page` (grab_handler.py lines 391-463)

`_detect_content_type` compares a `str` against `bytes` literals
(`content.startswith(b"\xff\xd8\xff")`, grab_handler.py line 605),
which raises `TypeError` in Python 3 whenever the content does not
start with `%PDF-`; `process_page`'s exception handler then records the
URL as failed and skips resource and link processing.  The model
reproduces that control flow. -/

/-- The body of `process_page` after the visited-marking, over the
precomputed fetch result, URL type `urt`, validity verdict `vh`, PDF
signature flag and extracted links. -/
def processPageBody (cb : Collab) (cfg : CrawlConfig) (st : CrawlState)
    (url html : String) (resources : List (String × List String))
    (urt : String) (vh pdfSig : Bool) (links : List String) : CrawlState :=
  if urt ≠ "html" && urt ≠ "skip" then (downloadFile cb st url urt).2
  else if html ≠ "" && !vh && !pdfSig then
    { st with failed := addS st.failed url }
  else
    let stA :=
      if html ≠ "" then
        if vh then saveHtml cb st url html
        else (downloadFile cb st url "documents").2
      else st
    let stB := if cfg.resourcesFlag then processResources cb stA resources else stA
    if cfg.linksFlag then processLinks cfg stB links else stB

/-- The body of `process_page` past its entry guard: mark the URL
visited (recording the guard pass in the ghost `pageLog`), then run the
body. -/
def processPageCore (cb : Collab) (cfg : CrawlConfig) (st0 : CrawlState)
    (url html : String) (resources : List (String × List String))
    (urt : String) (vh pdfSig : Bool) (links : List String) : CrawlState :=
  processPageBody cb cfg
    { st0 with visited := addS st0.visited url, pageLog := st0.pageLog ++ [url] }
    url html resources urt vh pdfSig links

/-- `GrabHandler.process_page`. -/
def processPage (cb : Collab) (cfg : CrawlConfig) (st : CrawlState)
    (url : String) : CrawlState :=
  if !shouldProcess cfg st url then st
  else
    processPageCore cb cfg st url (cb.fetch url).1 (cb.fetch url).2
      (getFileType url) (isValidHtmlB (cb.fetch url).1)
      (strStarts (cb.fetch url).1 "%PDF-")
      (pageLinks url (cb.hrefs url (cb.fetch url).1))

/-! ## `GrabHandler.crawl` wave loop (grab_handler.py lines 654-682) -/

/-- The scheduler's batch formation: pop `min(2 × threads, |pending|)`
URLs out of the pending set into a work batch; dispatch happens with
the state returned here (no visited-marking at this point). -/
def wavePop (cfg : CrawlConfig) (st : CrawlState) : List String × CrawlState :=
  let k := min (2 * cfg.threads) st.toVisit.length
  (st.toVisit.take k, { st with toVisit := st.toVisit.drop k })

/-- One wave: pop a batch and process its pages; the executor barrier
(`future.result()` over the whole batch) serializes waves. -/
def crawlWave (cb : Collab) (cfg : CrawlConfig) (st : CrawlState) : CrawlState :=
  let bp := wavePop cfg st
  bp.1.foldl (processPage cb cfg) bp.2

/-- The `while self.to_visit` loop, fuel-indexed. -/
def crawlLoop (cb : Collab) (cfg : CrawlConfig) : Nat → CrawlState → CrawlState
  | 0, st => st
  | n + 1, st =>
    if st.toVisit = [] then st else crawlLoop cb cfg n (crawlWave cb cfg st)

/-! ## `GrabHandler.setup` and `_load_failed_urls`
(grab_handler.py lines 83-211) -/

/-- The frontier state right after `setup`: fresh sets with the seed
pending; with `retry_failed`, `_load_failed_urls` adds each nonempty
stripped line of `failed_urls.txt` to the **failed** set
(`self.failed_urls.add(url)`, grab_handler.py line 208).  `none` for
`persistedFailed` models an absent file. -/
def setupState (seedUrl : String) (persistedFailed : Option (List String))
    (retryFailed : Bool) : CrawlState :=
  { visited := [], toVisit := [seedUrl],
    failed :=
      if retryFailed then
        match persistedFailed with
        | some lines =>
          lines.foldl (fun acc line =>
            let u := trimStr line
            if u ≠ "" then addS acc u else acc) []
        | none => []
      else [],
    countHtml := 0, countImages := 0, countDocuments := 0, countVideos := 0,
    fs := [], pageLog := [], resLog := [] }

/-! ## Spec-side and amended classification rules (for claim C5) -/

/-- The `.pdf` rule as the spec states it: filename or path matches one
of `resume`, `cv`, `/documents/`, `/docs/`, `/publications/`, or the
filename is not purely numeric. -/
def specPdfDocumentsRule (url : String) : Bool :=
  strHasSub (lowerStr url) "resume" || strHasSub (lowerStr url) "cv" ||
  strHasSub (lowerStr url) "/documents/" || strHasSub (lowerStr url) "/docs/" ||
  strHasSub (lowerStr url) "/publications/" ||
  !strIsDigit (replaceStr (pathFilenameOf url) ".pdf" "")

/-- The `.pdf` rule the code uses: only `resume`, `cv` and
`/documents/` are consulted (as substrings of the whole lowercased
URL), plus the not-purely-numeric fallback. -/
def codePdfDocumentsRule (url : String) : Bool :=
  strHasSub (lowerStr url) "resume" || strHasSub (lowerStr url) "cv" ||
  strHasSub (lowerStr url) "/documents/" ||
  !strIsDigit (replaceStr (pathFilenameOf url) ".pdf" "")

/-! ## Concrete scenario fixtures

Small fixture sites used by the counterexample and witness theorems:
each is a concrete `Collab` describing a deterministic response set. -/

/-- A site whose seed links to two pages and an image; the image URL is
also referenced as an `<img>` resource of page `p`. -/
def collabMixed : Collab :=
  { fetch := fun u =>
      if u = "http://s.com/" then ("<html>seed</html>", [])
      else if u = "http://s.com/p" then
        ("<html>p</html>", [("images", ["http://s.com/i.jpg"])])
      else if u = "http://s.com/q" then ("<html>q</html>", [])
      else ("", []),
    hrefs := fun u _ =>
      if u = "http://s.com/" then
        ["http://s.com/p", "http://s.com/q", "http://s.com/i.jpg"]
      else [],
    netSuccess := fun _ => true,
    fileData := fun _ => { size := 5000, head := "xxxx" },
    urlHash := fun _ => 7 }

/-- Unrestricted single-thread configuration. -/
def cfgOpen : CrawlConfig :=
  { maxDepth := 10, restrictDomain := false, resourcesFlag := true,
    linksFlag := true, threads := 1 }

/-- Fresh state for the `http://s.com/` seed. -/
def stSeed : CrawlState := setupState "http://s.com/" none false

/-- A seed page carrying a scheme-relative href to a foreign host. -/
def collabOffDomain : Collab :=
  { fetch := fun u =>
      if u = "https://s.com/" then ("<html>seed</html>", []) else ("", []),
    hrefs := fun u _ => if u = "https://s.com/" then ["//evil.com/x"] else [],
    netSuccess := fun _ => true,
    fileData := fun _ => { size := 5000, head := "xxxx" },
    urlHash := fun _ => 0 }

/-- Domain-restricted single-thread configuration. -/
def cfgRestrict : CrawlConfig :=
  { maxDepth := 10, restrictDomain := true, resourcesFlag := true,
    linksFlag := true, threads := 1 }

/-- A seed page with a single image resource (for re-run comparison). -/
def collabOneImage : Collab :=
  { fetch := fun u =>
      if u = "http://s.com/" then
        ("<html>seed</html>", [("images", ["http://s.com/i.jpg"])])
      else ("", []),
    hrefs := fun _ _ => [],
    netSuccess := fun _ => true,
    fileData := fun _ => { size := 5000, head := "xxxx" },
    urlHash := fun _ => 3 }

/-- A site serving a 50-byte artifact for every download (an undersized
image in the validator's sense). -/
def collabTinyImage : Collab :=
  { fetch := fun _ => ("", []),
    hrefs := fun _ _ => [],
    netSuccess := fun _ => true,
    fileData := fun _ => { size := 50, head := "IMG" },
    urlHash := fun _ => 1 }

/-- First run of the one-image site from an empty output directory. -/
def oneImageRunOne : CrawlState := crawlLoop collabOneImage cfgOpen 3 stSeed

/-- Second run of the same job over the directory the first run left
behind (fresh frontier and counters, same files on disk). -/
def oneImageRunTwo : CrawlState :=
  crawlLoop collabOneImage cfgOpen 3 { stSeed with fs := oneImageRunOne.fs }

/-- The total of the four per-type counters (used to detect whether a
call incremented anything). -/
def countsSum (st : CrawlState) : Nat :=
  st.countHtml + st.countImages + st.countDocuments + st.countVideos

/-! ## Evolution order on crawl states

`Evolves s t` collects what every engine operation guarantees between a
state and its successor: visited and failed only grow, any new failed
URL is visited by then, counters never decrease, and the visited set
never shrinks in size. -/

/-- The monotone part of the engine's state transitions. -/
def Evolves (s t : CrawlState) : Prop :=
  (∀ u, u ∈ s.visited → u ∈ t.visited) ∧
  (∀ u, u ∈ s.failed → u ∈ t.failed) ∧
  (∀ u, u ∈ t.failed → u ∈ s.failed ∨ u ∈ t.visited) ∧
  s.countHtml ≤ t.countHtml ∧ s.countImages ≤ t.countImages ∧
  s.countDocuments ≤ t.countDocuments ∧ s.countVideos ≤ t.countVideos ∧
  s.visited.length ≤ t.visited.length

/-! # Theorems -/

/-- C5, counterexample.  The spec's pattern list for `.pdf` URLs also
names `/docs/` and `/publications/`, but `get_file_type` consults only
`resume`, `cv` and `/documents/`: `https://x.com/docs/123.pdf` matches
the spec's `/docs/` pattern (so the claim classifies it `documents`),
yet the code returns `html` for it (purely numeric filename, no code
pattern hit). -/
theorem getFileType_spec_pattern_list_false :
    specPdfDocumentsRule "https://x.com/docs/123.pdf" = true ∧
    pathExtOf "https://x.com/docs/123.pdf" = "pdf" ∧
    getFileType "https://x.com/docs/123.pdf" = "html" := ⟨rfl, rfl, rfl⟩

/-- C5, amended.  A `.pdf` URL is classified `documents` iff the
lowercased URL contains `resume`, `cv` or `/documents/` (`/docs/` and
`/publications/` are not consulted), or its filename with `.pdf`
removed is not purely numeric; and the spec's four examples hold. -/
theorem getFileType_classification :
    (∀ url : String, pathExtOf url = "pdf" →
      (getFileType url = "documents" ↔ codePdfDocumentsRule url = true)) ∧
    getFileType "https://x.com/a/photo.jpg" = "images" ∧
    getFileType "https://x.com/documents/report.pdf" = "documents" ∧
    getFileType "https://x.com/9182736.pdf" = "html" ∧
    getFileType "https://x.com/page" = "html" := by
  refine ⟨?_, rfl, rfl, rfl, rfl⟩
  intro url h
  unfold getFileType codePdfDocumentsRule
  rw [h]
  cases hA : (strHasSub (lowerStr url) "resume" || strHasSub (lowerStr url) "cv" ||
      strHasSub (lowerStr url) "/documents/") <;>
    cases hD : strIsDigit (replaceStr (pathFilenameOf url) ".pdf" "") <;>
      simp [hA, hD, webExts, imageExts, videoExts, documentExts]

/-- C5 witness: the amended `.pdf` rule evaluated at a concrete URL. -/
theorem getFileType_classification_witness :
    pathExtOf "https://x.com/a/report.pdf" = "pdf" ∧
    (getFileType "https://x.com/a/report.pdf" = "documents" ↔
      codePdfDocumentsRule "https://x.com/a/report.pdf" = true) :=
  ⟨rfl, getFileType_classification.1 "https://x.com/a/report.pdf" rfl⟩

/-- C3: with retry enabled, `_load_failed_urls` adds the persisted URLs
to the **failed** set, not to the pending set — after `setup` over a
directory whose `failed_urls.txt` holds `{A, B}`, `to_visit` is still
just the seed and contains neither `A` nor `B` (they sit in
`failed_urls`, where nothing ever retries them). -/
theorem setup_retry_loads_failed_not_pending :
    (setupState "https://s.com/" (some ["http://a.com/x", "http://a.com/y"])
        true).toVisit = ["https://s.com/"] ∧
    (setupState "https://s.com/" (some ["http://a.com/x", "http://a.com/y"])
        true).toVisit.contains "http://a.com/x" = false ∧
    (setupState "https://s.com/" (some ["http://a.com/x", "http://a.com/y"])
        true).failed = ["http://a.com/x", "http://a.com/y"] := ⟨rfl, rfl, rfl⟩

/-- C4: with `restrict_domain` enabled, a link to a foreign host can
still become pending.  `_should_process_url` compares against
`list(self.to_visit)[0]` — and the first wave pops the seed out of
`to_visit`, so the check is skipped entirely while the seed page's
links are processed: a scheme-relative href `//evil.com/x` on the seed
page of `https://s.com/` is normalized to `https://evil.com/x` and
queued, although its host neither equals `s.com` nor is a subdomain of
it. -/
theorem restricted_crawl_admits_foreign_host :
    cfgRestrict.restrictDomain = true ∧
    (crawlLoop collabOffDomain cfgRestrict 1
        (setupState "https://s.com/" none false)).toVisit =
      ["https://evil.com/x"] ∧
    urlNetloc "https://evil.com/x" ≠ urlNetloc "https://s.com/" ∧
    strEnds (urlNetloc "https://evil.com/x")
      ("." ++ urlNetloc "https://s.com/") = false := by
  refine ⟨rfl, rfl, ?_, rfl⟩
  decide

/-- C2, counterexample.  `visited ∩ pending = ∅` fails: on the
`collabMixed` site the image URL is queued as a link of the seed page
and, while still pending, is marked visited by `_process_resources`
when page `p` references it as a resource — after two waves it is in
both sets. -/
theorem crawl_visited_pending_overlap :
    (crawlLoop collabMixed cfgOpen 2 stSeed).visited.contains
      "http://s.com/i.jpg" = true ∧
    (crawlLoop collabMixed cfgOpen 2 stSeed).toVisit.contains
      "http://s.com/i.jpg" = true := ⟨rfl, rfl⟩

/-- C1, counterexample.  The scheduler does not mark a URL visited
before dispatching it: after the batch is popped (the point at which
`crawl` submits `process_page` to the executor), the seed is in the
batch but the visited set is still empty — the visited-set claim
happens inside `process_page`, not pre-dispatch. -/
theorem wavePop_does_not_mark_visited :
    (wavePop cfgOpen stSeed).1 = ["http://s.com/"] ∧
    (wavePop cfgOpen stSeed).2.visited = [] := ⟨rfl, rfl⟩

/-- C7, counterexample.  Re-running the same job over the directory the
first run left behind does **not** reproduce `resourceCounts`: the
existing-path check returns success without incrementing, so the image
counted 1 in the first run counts 0 in the second. -/
theorem rerun_counts_differ :
    oneImageRunOne.countImages = 1 ∧ oneImageRunTwo.countImages = 0 ∧
    oneImageRunOne.fs = oneImageRunTwo.fs.take 2 := ⟨rfl, rfl, rfl⟩

/-- C7, amended.  When a file already exists at the resolved
destination path, `download_file` returns success and changes nothing —
no re-download, no state mutation; but per-type counters count only
fresh downloads, so a re-run's counts are not identical to the first
run's. -/
theorem downloadFile_skips_existing (cb : Collab) (st : CrawlState)
    (url rtype0 : String) (h : st.fs.contains (dlPath cb url rtype0) = true) :
    downloadFile cb st url rtype0 = (true, st) := by
  have h' : dlPath cb url rtype0 ∈ st.fs := by simpa using h
  unfold downloadFile dlStep
  simp [h']

/-- C7 witness: the second run's image download short-circuits on the
file the first run wrote. -/
theorem downloadFile_skips_existing_witness :
    ({ stSeed with fs := oneImageRunOne.fs } : CrawlState).fs.contains
      (dlPath collabOneImage "http://s.com/i.jpg" "images") = true ∧
    downloadFile collabOneImage { stSeed with fs := oneImageRunOne.fs }
      "http://s.com/i.jpg" "images" =
      (true, { stSeed with fs := oneImageRunOne.fs }) :=
  ⟨rfl, downloadFile_skips_existing collabOneImage
    { stSeed with fs := oneImageRunOne.fs } "http://s.com/i.jpg" "images" rfl⟩

/-! ## Helper lemmas -/

/-- Two prefixes with different first characters cannot both hold. -/
theorem startsL_ne_head {a b : Char} (p q l : List Char) (hab : a ≠ b)
    (h : startsL (a :: p) l = true) : startsL (b :: q) l = false := by
  cases l with
  | nil => simp [startsL] at h
  | cons c cs =>
    simp only [startsL, Bool.and_eq_true, beq_iff_eq] at h
    obtain ⟨h1, -⟩ := h
    subst h1
    have hba : (b == a) = false := beq_eq_false_iff_ne.mpr (Ne.symm hab)
    simp [startsL, hba]

/-- A two-character prefix implies its one-character prefix. -/
theorem startsL_pair_head {a b : Char} (l : List Char)
    (h : startsL [a, b] l = true) : startsL [a] l = true := by
  cases l with
  | nil => simp [startsL] at h
  | cons c cs =>
    simp only [startsL, Bool.and_eq_true, beq_iff_eq] at h
    simp [startsL, h.1]

/-- An `http(s)://` reference does not start with `//`. -/
theorem strStarts_http_not_protorel {s : String}
    (h : strStarts s "http://" = true ∨ strStarts s "https://" = true) :
    strStarts s "//" = false := by
  rcases h with h | h
  · exact startsL_ne_head _ _ _ (by decide) h
  · exact startsL_ne_head _ _ _ (by decide) h

/-- A reference starting with `/` starts with neither `http://` nor
`https://`. -/
theorem strStarts_slash_not_http {s : String} (h : strStarts s "/" = true) :
    strStarts s "http://" = false ∧ strStarts s "https://" = false :=
  ⟨startsL_ne_head _ _ _ (by decide) h, startsL_ne_head _ _ _ (by decide) h⟩

/-- `List.contains` through propositional membership. -/
theorem contains_eq_decide_mem (l : List String) (x : String) :
    l.contains x = decide (x ∈ l) := List.elem_eq_mem x l

/-- A removed element is gone from the set-modelling list. -/
theorem not_mem_removeS (l : List String) (x : String) : x ∉ removeS l x := by
  simp [removeS]

/-- An added element is present in the set-modelling list. -/
theorem addS_contains_self (l : List String) (x : String) :
    (addS l x).contains x = true := by
  unfold addS
  split
  · assumption
  · rw [contains_eq_decide_mem]
    simp

/-- Membership form of `addS_contains_self`. -/
theorem mem_addS_self (l : List String) (x : String) : x ∈ addS l x := by
  unfold addS
  split
  · next h => rw [contains_eq_decide_mem] at h; simpa using h
  · simp

/-! ## Claim C8: `normalize_url` -/

/-- C8: `normalize_url` strips the fragment of every string input and
then: prefixes scheme-relative references with the base's scheme,
returns absolute `http(s)` references unchanged (query preserved),
resolves root-relative references to `scheme://base-netloc ++ ref`,
resolves relative and parent-navigation references through `urljoin`
against the base, and passes through (returning the base, without
raising) on empty or non-string input. -/
theorem normalizeUrl_spec :
    (∀ base : String, normalizeUrl base none = base) ∧
    (∀ base : String, normalizeUrl base (some "") = base) ∧
    (∀ base ref : String, ref ≠ "" → trimStr ref ≠ "" →
      strStarts (stripFrag (trimStr ref)) "//" = true →
      normalizeUrl base (some ref) =
        urlScheme base ++ ":" ++ stripFrag (trimStr ref)) ∧
    (∀ base ref : String, ref ≠ "" → trimStr ref ≠ "" →
      (strStarts (stripFrag (trimStr ref)) "http://" = true ∨
       strStarts (stripFrag (trimStr ref)) "https://" = true) →
      normalizeUrl base (some ref) = stripFrag (trimStr ref)) ∧
    (∀ base ref : String, ref ≠ "" → trimStr ref ≠ "" →
      strStarts (stripFrag (trimStr ref)) "/" = true →
      strStarts (stripFrag (trimStr ref)) "//" = false →
      normalizeUrl base (some ref) =
        urlScheme base ++ "://" ++ urlNetloc base ++ stripFrag (trimStr ref)) ∧
    (∀ base ref : String, ref ≠ "" → trimStr ref ≠ "" →
      strStarts (stripFrag (trimStr ref)) "/" = false →
      strStarts (stripFrag (trimStr ref)) "http://" = false →
      strStarts (stripFrag (trimStr ref)) "https://" = false →
      strHasSub (stripFrag (trimStr ref)) "://" = false →
      normalizeUrl base (some ref) = urljoinM base (stripFrag (trimStr ref))) ∧
    normalizeUrlS "http://x.com/a/b/page.html" "../c.png" = "http://x.com/a/c.png" ∧
    normalizeUrlS "http://x.com/a/b/page.html" "img/c.png" =
      "http://x.com/a/b/img/c.png" ∧
    normalizeUrlS "https://x.com/a" "http://o.com/b?q=1#f" = "http://o.com/b?q=1" ∧
    normalizeUrlS "https://x.com/a" "//cdn.com/z" = "https://cdn.com/z" := by
  refine ⟨fun base => rfl, fun base => rfl, ?_, ?_, ?_, ?_, rfl, rfl, rfl, rfl⟩
  · intro base ref h0 h1 hss
    simp [normalizeUrl, h0, h1, hss]
  · intro base ref h0 h1 hht
    have hss := strStarts_http_not_protorel hht
    rcases hht with hht | hht <;> simp [normalizeUrl, h0, h1, hss, hht]
  · intro base ref h0 h1 hsl hss
    have hh := strStarts_slash_not_http hsl
    simp [normalizeUrl, h0, h1, hsl, hss, hh.1, hh.2]
  · intro base ref h0 h1 hsl hh1 hh2 hsep
    have hss : strStarts (stripFrag (trimStr ref)) "//" = false := by
      cases hv : strStarts (stripFrag (trimStr ref)) "//" with
      | false => rfl
      | true =>
        have hsl' : startsL ['/'] (stripFrag (trimStr ref)).data = false := hsl
        exact absurd (startsL_pair_head _ hv) (by simp [hsl'])
    cases hdd : (strStarts (stripFrag (trimStr ref)) "../" ||
        strHasSub (stripFrag (trimStr ref)) "/../") <;>
      simp [normalizeUrl, h0, h1, hsl, hss, hh1, hh2, hsep, hdd]

/-- C8 witness: each branch of `normalize_url` evaluated at a concrete
reference. -/
theorem normalizeUrl_spec_witness :
    normalizeUrl "http://x.com/a" none = "http://x.com/a" ∧
    normalizeUrl "http://x.com/a" (some "") = "http://x.com/a" ∧
    normalizeUrl "http://x.com/a" (some "//cdn.com/z#f") =
      urlScheme "http://x.com/a" ++ ":" ++ stripFrag (trimStr "//cdn.com/z#f") ∧
    normalizeUrl "http://x.com/a" (some "https://o.com/b?q=1#f") =
      stripFrag (trimStr "https://o.com/b?q=1#f") ∧
    normalizeUrl "http://x.com/a" (some "/r/s#f") =
      urlScheme "http://x.com/a" ++ "://" ++ urlNetloc "http://x.com/a" ++
        stripFrag (trimStr "/r/s#f") ∧
    normalizeUrl "http://x.com/a/b" (some "../c#f") =
      urljoinM "http://x.com/a/b" (stripFrag (trimStr "../c#f")) :=
  ⟨normalizeUrl_spec.1 "http://x.com/a",
   normalizeUrl_spec.2.1 "http://x.com/a",
   normalizeUrl_spec.2.2.1 "http://x.com/a" "//cdn.com/z#f" (by decide) (by decide)
     (by decide),
   normalizeUrl_spec.2.2.2.1 "http://x.com/a" "https://o.com/b?q=1#f" (by decide)
     (by decide) (Or.inr (by decide)),
   normalizeUrl_spec.2.2.2.2.1 "http://x.com/a" "/r/s#f" (by decide) (by decide)
     (by decide) (by decide),
   normalizeUrl_spec.2.2.2.2.2.1 "http://x.com/a/b" "../c#f" (by decide) (by decide)
     (by decide) (by decide) (by decide) (by decide)⟩

/-! ## Claim C6: validator rejections -/

/-- C6: `validate_downloaded_file` deletes and rejects exactly the
corrupted-artifact cases — an `images`-typed file under 100 bytes; a
`documents`/`images`/`videos`-typed file whose first kilobyte starts
with an HTML document marker; a `documents`-typed `.pdf` file without
the `%PDF-` signature — and accepts (without deleting) in every other
case; and a failed validation inside `download_file` makes it return
failure, record the source URL in `failed`, and leave no file at the
destination path. -/
theorem validator_rejections :
    (∀ (fd : FileData) (sfx : String), fd.size < 100 →
      validateFile fd "images" sfx = (false, true)) ∧
    (∀ fd : FileData, fdPdfSig fd = false →
      validateFile fd "documents" ".pdf" = (false, true)) ∧
    (∀ (fd : FileData) (t sfx : String),
      (t = "documents" ∨ t = "images" ∨ t = "videos") → 0 < fd.size →
      fdStartsHtml fd = true → validateFile fd t sfx = (false, true)) ∧
    (∀ (fd : FileData) (t sfx : String),
      ¬ (t = "images" ∧ fd.size < 100) →
      ¬ ((t = "documents" ∨ t = "images" ∨ t = "videos") ∧ 0 < fd.size ∧
          fdStartsHtml fd = true) →
      ¬ (t = "documents" ∧ sfx = ".pdf" ∧ fdPdfSig fd = false) →
      validateFile fd t sfx = (true, false)) ∧
    (∀ (cb : Collab) (st : CrawlState) (url rtype0 : String),
      cb.netSuccess url = true →
      st.fs.contains (dlPath cb url rtype0) = false →
      (validateFile (cb.fileData url) (dlType url rtype0)
        (lowerStr (extOf (dlFinalPath cb url rtype0)))).1 = false →
      (downloadFile cb st url rtype0).1 = false ∧
      (downloadFile cb st url rtype0).2.failed.contains url = true ∧
      (downloadFile cb st url rtype0).2.fs.contains
        (dlFinalPath cb url rtype0) = false) := by
  refine ⟨?_, ?_, ?_, ?_, ?_⟩
  · intro fd sfx h
    simp [validateFile, h]
  · intro fd h
    simp [validateFile, h]
  · intro fd t sfx ht hsz hh
    rcases ht with rfl | rfl | rfl <;> simp [validateFile, hsz, hh]
  · intro fd t sfx h1 h2 h3
    unfold validateFile
    split
    · next hc =>
      exact absurd (by simpa using hc) h1
    split
    · next hc =>
      refine absurd ?_ h2
      have hc' := hc
      simp only [Bool.and_eq_true, Bool.or_eq_true, decide_eq_true_eq] at hc'
      exact ⟨or_assoc.mp hc'.1.1, hc'.1.2, hc'.2⟩
    split
    · next hc =>
      refine absurd ?_ h3
      have hc' := hc
      simp only [Bool.and_eq_true, Bool.not_eq_true', decide_eq_true_eq] at hc'
      exact ⟨hc'.1.1, hc'.1.2, hc'.2⟩
    rfl
  · intro cb st url rtype0 hnet hfs hval
    have hns : dlPath cb url rtype0 ∉ st.fs := by
      rw [contains_eq_decide_mem] at hfs
      simpa using hfs
    refine ⟨?_, ?_, ?_⟩ <;>
      simp [downloadFile, dlStep, hns, hnet, hval, mem_addS_self, not_mem_removeS]

/-- C6 witness: a 50-byte `images` artifact is deleted, rejected, and
its URL recorded as failed by `download_file`. -/
theorem validator_rejections_witness :
    validateFile { size := 50, head := "IMG" } "images" ".jpg" = (false, true) ∧
    ((downloadFile collabTinyImage stSeed "http://s.com/pic.jpg" "images").1 =
        false ∧
      (downloadFile collabTinyImage stSeed "http://s.com/pic.jpg"
          "images").2.failed.contains "http://s.com/pic.jpg" = true ∧
      (downloadFile collabTinyImage stSeed "http://s.com/pic.jpg"
          "images").2.fs.contains
        (dlFinalPath collabTinyImage "http://s.com/pic.jpg" "images") = false) :=
  ⟨validator_rejections.1 { size := 50, head := "IMG" } ".jpg" (by decide),
   validator_rejections.2.2.2.2 collabTinyImage stSeed "http://s.com/pic.jpg"
     "images" rfl rfl (by decide)⟩

/-! ## Field-preservation lemmas for the engine operations -/

theorem incCount_fields (st : CrawlState) (t : String) :
    (incCount st t).visited = st.visited ∧ (incCount st t).toVisit = st.toVisit ∧
    (incCount st t).failed = st.failed ∧ (incCount st t).fs = st.fs ∧
    (incCount st t).pageLog = st.pageLog ∧ (incCount st t).resLog = st.resLog := by
  unfold incCount
  repeat' split
  all_goals exact ⟨rfl, rfl, rfl, rfl, rfl, rfl⟩

theorem incCount_counts_le (st : CrawlState) (t : String) :
    st.countHtml ≤ (incCount st t).countHtml ∧
    st.countImages ≤ (incCount st t).countImages ∧
    st.countDocuments ≤ (incCount st t).countDocuments ∧
    st.countVideos ≤ (incCount st t).countVideos := by
  unfold incCount
  repeat' split
  all_goals simp

theorem dlStep_fields (st : CrawlState) (url rtype path path2 : String)
    (success : Bool) (vd : Bool × Bool) :
    (dlStep st url rtype path path2 success vd).2.visited = st.visited ∧
    (dlStep st url rtype path path2 success vd).2.toVisit = st.toVisit ∧
    (dlStep st url rtype path path2 success vd).2.pageLog = st.pageLog ∧
    (dlStep st url rtype path path2 success vd).2.resLog = st.resLog := by
  unfold dlStep
  repeat' split
  · exact ⟨rfl, rfl, rfl, rfl⟩
  · exact ⟨(incCount_fields _ _).1, (incCount_fields _ _).2.1,
      (incCount_fields _ _).2.2.2.2.1, (incCount_fields _ _).2.2.2.2.2⟩
  · exact ⟨rfl, rfl, rfl, rfl⟩
  · exact ⟨rfl, rfl, rfl, rfl⟩

theorem downloadFile_fields (cb : Collab) (st : CrawlState) (url rtype0 : String) :
    (downloadFile cb st url rtype0).2.visited = st.visited ∧
    (downloadFile cb st url rtype0).2.toVisit = st.toVisit ∧
    (downloadFile cb st url rtype0).2.pageLog = st.pageLog ∧
    (downloadFile cb st url rtype0).2.resLog = st.resLog :=
  dlStep_fields st url _ _ _ _ _

theorem dlStep_failed_cases (st : CrawlState) (url rtype path path2 : String)
    (success : Bool) (vd : Bool × Bool) :
    (dlStep st url rtype path path2 success vd).2.failed = st.failed ∨
    (dlStep st url rtype path path2 success vd).2.failed = addS st.failed url := by
  unfold dlStep
  repeat' split
  · exact Or.inl rfl
  · exact Or.inl ((incCount_fields _ _).2.2.1)
  · exact Or.inr rfl
  · exact Or.inr rfl

theorem downloadFile_failed_cases (cb : Collab) (st : CrawlState)
    (url rtype0 : String) :
    (downloadFile cb st url rtype0).2.failed = st.failed ∨
    (downloadFile cb st url rtype0).2.failed = addS st.failed url :=
  dlStep_failed_cases st url _ _ _ _ _

theorem dlStep_counts_le (st : CrawlState) (url rtype path path2 : String)
    (success : Bool) (vd : Bool × Bool) :
    st.countHtml ≤ (dlStep st url rtype path path2 success vd).2.countHtml ∧
    st.countImages ≤ (dlStep st url rtype path path2 success vd).2.countImages ∧
    st.countDocuments ≤
      (dlStep st url rtype path path2 success vd).2.countDocuments ∧
    st.countVideos ≤ (dlStep st url rtype path path2 success vd).2.countVideos := by
  unfold dlStep
  repeat' split
  · exact ⟨le_refl _, le_refl _, le_refl _, le_refl _⟩
  · simpa using incCount_counts_le { st with fs := addS st.fs path2 } rtype
  · exact ⟨le_refl _, le_refl _, le_refl _, le_refl _⟩
  · exact ⟨le_refl _, le_refl _, le_refl _, le_refl _⟩

theorem downloadFile_counts_le (cb : Collab) (st : CrawlState)
    (url rtype0 : String) :
    st.countHtml ≤ (downloadFile cb st url rtype0).2.countHtml ∧
    st.countImages ≤ (downloadFile cb st url rtype0).2.countImages ∧
    st.countDocuments ≤ (downloadFile cb st url rtype0).2.countDocuments ∧
    st.countVideos ≤ (downloadFile cb st url rtype0).2.countVideos :=
  dlStep_counts_le st url _ _ _ _ _

theorem saveHtmlCore_fields (cb : Collab) (st : CrawlState) (url : String)
    (rt : String) (vh : Bool) (fname0 : String) (hsh : Nat) :
    (saveHtmlCore cb st url rt vh fname0 hsh).visited = st.visited ∧
    (saveHtmlCore cb st url rt vh fname0 hsh).toVisit = st.toVisit ∧
    (saveHtmlCore cb st url rt vh fname0 hsh).pageLog = st.pageLog ∧
    (saveHtmlCore cb st url rt vh fname0 hsh).resLog = st.resLog := by
  unfold saveHtmlCore
  dsimp only
  repeat' split
  all_goals first
  | exact downloadFile_fields _ _ _ _
  | exact ⟨rfl, rfl, rfl, rfl⟩

theorem saveHtml_fields (cb : Collab) (st : CrawlState) (url html : String) :
    (saveHtml cb st url html).visited = st.visited ∧
    (saveHtml cb st url html).toVisit = st.toVisit ∧
    (saveHtml cb st url html).pageLog = st.pageLog ∧
    (saveHtml cb st url html).resLog = st.resLog :=
  saveHtmlCore_fields cb st url _ _ _ _

theorem saveHtmlCore_failed_cases (cb : Collab) (st : CrawlState) (url : String)
    (rt : String) (vh : Bool) (fname0 : String) (hsh : Nat) :
    (saveHtmlCore cb st url rt vh fname0 hsh).failed = st.failed ∨
    (saveHtmlCore cb st url rt vh fname0 hsh).failed = addS st.failed url := by
  unfold saveHtmlCore
  dsimp only
  repeat' split
  all_goals first
  | exact downloadFile_failed_cases _ _ _ _
  | exact Or.inl rfl

theorem saveHtml_failed_cases (cb : Collab) (st : CrawlState) (url html : String) :
    (saveHtml cb st url html).failed = st.failed ∨
    (saveHtml cb st url html).failed = addS st.failed url :=
  saveHtmlCore_failed_cases cb st url _ _ _ _

theorem saveHtmlCore_counts_le (cb : Collab) (st : CrawlState) (url : String)
    (rt : String) (vh : Bool) (fname0 : String) (hsh : Nat) :
    st.countHtml ≤ (saveHtmlCore cb st url rt vh fname0 hsh).countHtml ∧
    st.countImages ≤ (saveHtmlCore cb st url rt vh fname0 hsh).countImages ∧
    st.countDocuments ≤ (saveHtmlCore cb st url rt vh fname0 hsh).countDocuments ∧
    st.countVideos ≤ (saveHtmlCore cb st url rt vh fname0 hsh).countVideos := by
  unfold saveHtmlCore
  dsimp only
  repeat' split
  all_goals first
  | exact downloadFile_counts_le _ _ _ _
  | exact ⟨by simp, le_refl _, le_refl _, le_refl _⟩

theorem saveHtml_counts_le (cb : Collab) (st : CrawlState) (url html : String) :
    st.countHtml ≤ (saveHtml cb st url html).countHtml ∧
    st.countImages ≤ (saveHtml cb st url html).countImages ∧
    st.countDocuments ≤ (saveHtml cb st url html).countDocuments ∧
    st.countVideos ≤ (saveHtml cb st url html).countVideos :=
  saveHtmlCore_counts_le cb st url _ _ _ _

/-! ## `Evolves` instances -/

theorem evolves_refl (s : CrawlState) : Evolves s s :=
  ⟨fun _ h => h, fun _ h => h, fun _ h => Or.inl h,
   le_refl _, le_refl _, le_refl _, le_refl _, le_refl _⟩

theorem evolves_trans {s t v : CrawlState} (h1 : Evolves s t)
    (h2 : Evolves t v) : Evolves s v := by
  obtain ⟨v1, f1, fv1, c1, c2, c3, c4, l1⟩ := h1
  obtain ⟨v2, f2, fv2, d1, d2, d3, d4, l2⟩ := h2
  refine ⟨fun u h => v2 u (v1 u h), fun u h => f2 u (f1 u h), ?_,
    le_trans c1 d1, le_trans c2 d2, le_trans c3 d3, le_trans c4 d4,
    le_trans l1 l2⟩
  intro u h
  rcases fv2 u h with h' | h'
  · rcases fv1 u h' with h'' | h''
    · exact Or.inl h''
    · exact Or.inr (v2 u h'')
  · exact Or.inr h'

theorem evolves_foldl {α : Type} (step : CrawlState → α → CrawlState)
    (hstep : ∀ st x, Evolves st (step st x)) :
    ∀ (l : List α) (st : CrawlState), Evolves st (l.foldl step st) := by
  intro l
  induction l with
  | nil => intro st; exact evolves_refl st
  | cons a t ih => intro st; exact evolves_trans (hstep st a) (ih (step st a))

/-- A state-predicate preserved by a step is preserved by the fold. -/
theorem foldl_preserve {α : Type} (step : CrawlState → α → CrawlState)
    (P : CrawlState → Prop) (h : ∀ st x, P st → P (step st x)) :
    ∀ (l : List α) (st : CrawlState), P st → P (l.foldl step st) := by
  intro l
  induction l with
  | nil => intro st hp; exact hp
  | cons a t ih => intro st hp; exact ih (step st a) (h st a hp)

/-- `downloadFile` evolves the state whenever its URL is already
visited (which is how every call site uses it). -/
theorem evolves_downloadFile_of_mem {cb : Collab} {st : CrawlState}
    {url : String} (rtype0 : String) (h : url ∈ st.visited) :
    Evolves st (downloadFile cb st url rtype0).2 := by
  have hf := downloadFile_fields cb st url rtype0
  have hc := downloadFile_counts_le cb st url rtype0
  refine ⟨fun u hu => by rw [hf.1]; exact hu, ?_, ?_,
    hc.1, hc.2.1, hc.2.2.1, hc.2.2.2, by rw [hf.1]⟩
  · intro u hu
    rcases downloadFile_failed_cases cb st url rtype0 with he | he <;> rw [he]
    · exact hu
    · unfold addS; split
      · exact hu
      · exact List.mem_append_left _ hu
  · intro u hu
    rcases downloadFile_failed_cases cb st url rtype0 with he | he <;>
      rw [he] at hu
    · exact Or.inl hu
    · unfold addS at hu
      split at hu
      · exact Or.inl hu
      · rcases List.mem_append.mp hu with h' | h'
        · exact Or.inl h'
        · have : u = url := List.mem_singleton.mp h'
          subst this
          exact Or.inr (by rw [hf.1]; exact h)

/-- `saveHtml` evolves the state whenever its URL is already visited. -/
theorem evolves_saveHtml_of_mem {cb : Collab} {st : CrawlState}
    {url : String} (html : String) (h : url ∈ st.visited) :
    Evolves st (saveHtml cb st url html) := by
  have hf := saveHtml_fields cb st url html
  have hc := saveHtml_counts_le cb st url html
  refine ⟨fun u hu => by rw [hf.1]; exact hu, ?_, ?_,
    hc.1, hc.2.1, hc.2.2.1, hc.2.2.2, by rw [hf.1]⟩
  · intro u hu
    rcases saveHtml_failed_cases cb st url html with he | he <;> rw [he]
    · exact hu
    · unfold addS; split
      · exact hu
      · exact List.mem_append_left _ hu
  · intro u hu
    rcases saveHtml_failed_cases cb st url html with he | he <;> rw [he] at hu
    · exact Or.inl hu
    · unfold addS at hu
      split at hu
      · exact Or.inl hu
      · rcases List.mem_append.mp hu with h' | h'
        · exact Or.inl h'
        · have : u = url := List.mem_singleton.mp h'
          subst this
          exact Or.inr (by rw [hf.1]; exact h)

/-! ## `addS` membership and length lemmas -/

theorem mem_addS_of_mem {l : List String} {u : String} (x : String)
    (h : u ∈ l) : u ∈ addS l x := by
  unfold addS
  split
  · exact h
  · exact List.mem_append_left _ h

theorem mem_addS_iff {l : List String} {x u : String} :
    u ∈ addS l x ↔ u ∈ l ∨ u = x := by
  unfold addS
  split
  · next h =>
    constructor
    · exact Or.inl
    · rintro (h' | rfl)
      · exact h'
      · rw [contains_eq_decide_mem] at h
        simpa using h
  · simp

theorem addS_length_ge (l : List String) (x : String) :
    l.length ≤ (addS l x).length := by
  unfold addS
  split
  · exact le_refl _
  · simp

theorem addS_length_succ {l : List String} {x : String}
    (h : l.contains x = false) : (addS l x).length = l.length + 1 := by
  unfold addS
  rw [h]
  simp

/-! ## `Evolves` instances for the engine operations -/

theorem evolves_processResource (cb : Collab) (rtype : String)
    (st : CrawlState) (u : String) :
    Evolves st (processResource cb rtype st u) := by
  unfold processResource
  split
  · exact evolves_refl st
  · have h1 : Evolves st
        { st with visited := addS st.visited u, resLog := st.resLog ++ [u] } :=
      ⟨fun v hv => mem_addS_of_mem u hv, fun v hv => hv,
       fun v hv => Or.inl hv, le_refl _, le_refl _, le_refl _, le_refl _,
       addS_length_ge _ _⟩
    exact evolves_trans h1 (evolves_downloadFile_of_mem rtype (mem_addS_self _ _))

theorem evolves_processResPair (cb : Collab) :
    ∀ (st : CrawlState) (p : String × List String),
      Evolves st (p.2.foldl (processResource cb p.1) st) :=
  fun st p =>
    evolves_foldl (processResource cb p.1) (evolves_processResource cb p.1) p.2 st

theorem evolves_processResources (cb : Collab)
    (resources : List (String × List String)) (st : CrawlState) :
    Evolves st (processResources cb st resources) := by
  unfold processResources
  exact evolves_foldl _ (evolves_processResPair cb) resources st

theorem evolves_processLink (cfg : CrawlConfig) (st : CrawlState) (l : String) :
    Evolves st (processLink cfg st l) := by
  unfold processLink
  split
  · exact evolves_refl st
  split
  · exact ⟨fun v hv => hv, fun v hv => hv, fun v hv => Or.inl hv,
      le_refl _, le_refl _, le_refl _, le_refl _, le_refl _⟩
  · exact evolves_refl st

theorem evolves_processLinks (cfg : CrawlConfig) (links : List String)
    (st : CrawlState) : Evolves st (processLinks cfg st links) := by
  unfold processLinks
  exact evolves_foldl _ (evolves_processLink cfg) links st

theorem evolves_processPageBody (cb : Collab) (cfg : CrawlConfig)
    (st : CrawlState) (url html : String)
    (resources : List (String × List String)) (urt : String)
    (vh pdfSig : Bool) (links : List String) (hmem : url ∈ st.visited) :
    Evolves st (processPageBody cb cfg st url html resources urt vh pdfSig links) := by
  unfold processPageBody
  dsimp only
  split
  · exact evolves_downloadFile_of_mem urt hmem
  split
  · refine ⟨fun v hv => hv, ?_, ?_, le_refl _, le_refl _, le_refl _, le_refl _,
      le_refl _⟩
    · intro v hv
      exact mem_addS_of_mem url hv
    · intro v hv
      rcases mem_addS_iff.mp hv with h' | rfl
      · exact Or.inl h'
      · exact Or.inr hmem
  · have hA : Evolves st (if html ≠ "" then
        (if vh then saveHtml cb st url html
         else (downloadFile cb st url "documents").2) else st) := by
      split
      · split
        · exact evolves_saveHtml_of_mem html hmem
        · exact evolves_downloadFile_of_mem "documents" hmem
      · exact evolves_refl st
    split
    · split
      · exact evolves_trans (evolves_trans hA (evolves_processResources _ _ _))
          (evolves_processLinks _ _ _)
      · exact evolves_trans hA (evolves_processLinks _ _ _)
    · split
      · exact evolves_trans hA (evolves_processResources _ _ _)
      · exact hA

theorem evolves_entry (st : CrawlState) (url : String) :
    Evolves st { st with visited := addS st.visited url,
                         pageLog := st.pageLog ++ [url] } :=
  ⟨fun v hv => mem_addS_of_mem url hv, fun v hv => hv, fun v hv => Or.inl hv,
   le_refl _, le_refl _, le_refl _, le_refl _, addS_length_ge _ _⟩

theorem evolves_processPageCore (cb : Collab) (cfg : CrawlConfig)
    (st0 : CrawlState) (url html : String)
    (resources : List (String × List String)) (urt : String)
    (vh pdfSig : Bool) (links : List String) :
    Evolves st0 (processPageCore cb cfg st0 url html resources urt vh pdfSig links) := by
  unfold processPageCore
  exact evolves_trans (evolves_entry st0 url)
    (evolves_processPageBody cb cfg _ url html resources urt vh pdfSig links
      (mem_addS_self _ _))

theorem evolves_processPage (cb : Collab) (cfg : CrawlConfig)
    (st : CrawlState) (url : String) :
    Evolves st (processPage cb cfg st url) := by
  unfold processPage
  split
  · exact evolves_refl st
  · exact evolves_processPageCore cb cfg st url _ _ _ _ _ _

theorem evolves_wavePop (cfg : CrawlConfig) (st : CrawlState) :
    Evolves st (wavePop cfg st).2 :=
  ⟨fun v hv => hv, fun v hv => hv, fun v hv => Or.inl hv,
   le_refl _, le_refl _, le_refl _, le_refl _, le_refl _⟩

theorem evolves_crawlWave (cb : Collab) (cfg : CrawlConfig) (st : CrawlState) :
    Evolves st (crawlWave cb cfg st) := by
  unfold crawlWave
  exact evolves_trans (evolves_wavePop cfg st)
    (evolves_foldl _ (evolves_processPage cb cfg) _ _)

theorem evolves_crawlLoop (cb : Collab) (cfg : CrawlConfig) :
    ∀ (n : Nat) (st : CrawlState), Evolves st (crawlLoop cb cfg n st) := by
  intro n
  induction n with
  | zero => intro st; exact evolves_refl st
  | succ n ih =>
    intro st
    unfold crawlLoop
    split
    · exact evolves_refl st
    · exact evolves_trans (evolves_crawlWave cb cfg st) (ih _)

/-! ## Field-equality fold lemmas -/

theorem foldl_field_eq {α β : Type} (step : CrawlState → α → CrawlState)
    (f : CrawlState → β) (h : ∀ st x, f (step st x) = f st) :
    ∀ (l : List α) (st : CrawlState), f (l.foldl step st) = f st := by
  intro l
  induction l with
  | nil => intro st; rfl
  | cons a t ih => intro st; rw [List.foldl_cons, ih, h]

theorem processResource_toVisit (cb : Collab) (rtype : String)
    (st : CrawlState) (u : String) :
    (processResource cb rtype st u).toVisit = st.toVisit := by
  unfold processResource
  split
  · rfl
  · exact (downloadFile_fields _ _ _ _).2.1

theorem processResource_pageLog (cb : Collab) (rtype : String)
    (st : CrawlState) (u : String) :
    (processResource cb rtype st u).pageLog = st.pageLog := by
  unfold processResource
  split
  · rfl
  · exact (downloadFile_fields _ _ _ _).2.2.1

theorem processResourceList_toVisit (cb : Collab) (rtype : String) :
    ∀ (us : List String) (st : CrawlState),
      (List.foldl (processResource cb rtype) st us).toVisit = st.toVisit := by
  intro us
  induction us with
  | nil => intro st; rfl
  | cons u rest ih =>
    intro st
    rw [List.foldl_cons, ih, processResource_toVisit]

theorem processResources_toVisit (cb : Collab)
    (resources : List (String × List String)) (st : CrawlState) :
    (processResources cb st resources).toVisit = st.toVisit := by
  unfold processResources
  induction resources generalizing st with
  | nil => rfl
  | cons p rest ih =>
    rw [List.foldl_cons, ih, processResourceList_toVisit]

theorem processResourceList_pageLog (cb : Collab) (rtype : String) :
    ∀ (us : List String) (st : CrawlState),
      (List.foldl (processResource cb rtype) st us).pageLog = st.pageLog := by
  intro us
  induction us with
  | nil => intro st; rfl
  | cons u rest ih =>
    intro st
    rw [List.foldl_cons, ih, processResource_pageLog]

theorem processResources_pageLog (cb : Collab)
    (resources : List (String × List String)) (st : CrawlState) :
    (processResources cb st resources).pageLog = st.pageLog := by
  unfold processResources
  induction resources generalizing st with
  | nil => rfl
  | cons p rest ih =>
    rw [List.foldl_cons, ih, processResourceList_pageLog]

theorem processLink_fields (cfg : CrawlConfig) (st : CrawlState) (l : String) :
    (processLink cfg st l).visited = st.visited ∧
    (processLink cfg st l).failed = st.failed ∧
    (processLink cfg st l).pageLog = st.pageLog ∧
    (processLink cfg st l).resLog = st.resLog := by
  unfold processLink
  split
  · exact ⟨rfl, rfl, rfl, rfl⟩
  split
  · exact ⟨rfl, rfl, rfl, rfl⟩
  · exact ⟨rfl, rfl, rfl, rfl⟩

theorem processLinks_pageLog (cfg : CrawlConfig) (links : List String)
    (st : CrawlState) : (processLinks cfg st links).pageLog = st.pageLog := by
  unfold processLinks
  exact foldl_field_eq (processLink cfg) (fun s => s.pageLog)
    (fun st l => (processLink_fields cfg st l).2.2.1) links st

theorem processLinks_resLog (cfg : CrawlConfig) (links : List String)
    (st : CrawlState) : (processLinks cfg st links).resLog = st.resLog := by
  unfold processLinks
  exact foldl_field_eq (processLink cfg) (fun s => s.resLog)
    (fun st l => (processLink_fields cfg st l).2.2.2) links st

theorem processLinks_visited (cfg : CrawlConfig) (links : List String)
    (st : CrawlState) : (processLinks cfg st links).visited = st.visited := by
  unfold processLinks
  exact foldl_field_eq (processLink cfg) (fun s => s.visited)
    (fun st l => (processLink_fields cfg st l).1) links st

/-! ## `_should_process_url` facts -/

theorem shouldProcess_not_visited {cfg : CrawlConfig} {st : CrawlState}
    {u : String} (h : shouldProcess cfg st u = true) :
    st.visited.contains u = false := by
  unfold shouldProcess at h
  split at h
  · exact absurd h (by simp)
  split at h
  · exact absurd h (by simp)
  · next hc => simpa using hc

theorem shouldProcess_vislen_lt {cfg : CrawlConfig} {st : CrawlState}
    {u : String} (hd : 1 ≤ cfg.maxDepth) (h : shouldProcess cfg st u = true) :
    st.visited.length < cfg.maxDepth := by
  unfold shouldProcess at h
  split at h
  · exact absurd h (by simp)
  split at h
  · exact absurd h (by simp)
  split at h
  · exact absurd h (by simp)
  · next hc =>
    simp only [Bool.and_eq_true, decide_eq_true_eq, not_and] at hc
    omega

theorem shouldProcess_false_of_ge {cfg : CrawlConfig} {st : CrawlState}
    (hd : 1 ≤ cfg.maxDepth) (hge : cfg.maxDepth ≤ st.visited.length)
    (u : String) : shouldProcess cfg st u = false := by
  unfold shouldProcess
  split
  · rfl
  split
  · rfl
  split
  · rfl
  · next hc =>
    exfalso
    apply hc
    simp only [Bool.and_eq_true, decide_eq_true_eq]
    omega

/-! ## `process_page` guard lemmas -/

theorem processPage_guard_false {cb : Collab} {cfg : CrawlConfig}
    {st : CrawlState} {url : String} (h : shouldProcess cfg st url = false) :
    processPage cb cfg st url = st := by
  unfold processPage
  simp [h]

theorem processPage_guard_true {cb : Collab} {cfg : CrawlConfig}
    {st : CrawlState} {url : String} (h : shouldProcess cfg st url = true) :
    processPage cb cfg st url =
      processPageCore cb cfg st url (cb.fetch url).1 (cb.fetch url).2
        (getFileType url) (isValidHtmlB (cb.fetch url).1)
        (strStarts (cb.fetch url).1 "%PDF-")
        (pageLinks url (cb.hrefs url (cb.fetch url).1)) := by
  unfold processPage
  simp [h]

theorem processPage_vislen_gt {cb : Collab} {cfg : CrawlConfig}
    {st : CrawlState} {url : String} (h : shouldProcess cfg st url = true) :
    st.visited.length < (processPage cb cfg st url).visited.length := by
  rw [processPage_guard_true h]
  unfold processPageCore
  have hb := (evolves_processPageBody cb cfg
    { st with visited := addS st.visited url, pageLog := st.pageLog ++ [url] }
    url (cb.fetch url).1 (cb.fetch url).2 (getFileType url)
    (isValidHtmlB (cb.fetch url).1) (strStarts (cb.fetch url).1 "%PDF-")
    (pageLinks url (cb.hrefs url (cb.fetch url).1))
    (mem_addS_self _ _)).2.2.2.2.2.2.2
  have hlen : (addS st.visited url).length = st.visited.length + 1 :=
    addS_length_succ (shouldProcess_not_visited h)
  simp only [hlen] at hb
  omega

/-! ## Wave dichotomy and loop termination -/

theorem foldl_pp_cases (cb : Collab) (cfg : CrawlConfig)
    (hd : 1 ≤ cfg.maxDepth) :
    ∀ (batch : List String) (st : CrawlState),
      batch.foldl (processPage cb cfg) st = st ∨
      (st.visited.length < (batch.foldl (processPage cb cfg) st).visited.length ∧
        st.visited.length < cfg.maxDepth) := by
  intro batch
  induction batch with
  | nil => intro st; exact Or.inl rfl
  | cons b bs ih =>
    intro st
    rw [List.foldl_cons]
    cases hg : shouldProcess cfg st b with
    | false =>
      rw [processPage_guard_false hg]
      exact ih st
    | true =>
      right
      have h1 := @processPage_vislen_gt cb cfg st b hg
      have h2 := (evolves_foldl _ (evolves_processPage cb cfg) bs
        (processPage cb cfg st b)).2.2.2.2.2.2.2
      exact ⟨lt_of_lt_of_le h1 h2, shouldProcess_vislen_lt hd hg⟩

theorem foldl_pp_id_of_ge (cb : Collab) (cfg : CrawlConfig)
    (hd : 1 ≤ cfg.maxDepth) :
    ∀ (batch : List String) (st : CrawlState),
      cfg.maxDepth ≤ st.visited.length →
      batch.foldl (processPage cb cfg) st = st := by
  intro batch
  induction batch with
  | nil => intro st _; rfl
  | cons b bs ih =>
    intro st hge
    rw [List.foldl_cons, processPage_guard_false (shouldProcess_false_of_ge hd hge b)]
    exact ih st hge

theorem crawlWave_eq_pop_of_ge {cb : Collab} {cfg : CrawlConfig}
    {st : CrawlState} (hd : 1 ≤ cfg.maxDepth)
    (hge : cfg.maxDepth ≤ st.visited.length) :
    crawlWave cb cfg st = (wavePop cfg st).2 := by
  unfold crawlWave
  exact foldl_pp_id_of_ge cb cfg hd _ _ hge

theorem wavePop_toVisit_length (cfg : CrawlConfig) (st : CrawlState) :
    (wavePop cfg st).2.toVisit.length =
      st.toVisit.length - min (2 * cfg.threads) st.toVisit.length := by
  unfold wavePop
  simp

theorem wavePop_toVisit_lt {cfg : CrawlConfig} {st : CrawlState}
    (ht : 1 ≤ cfg.threads) (hne : st.toVisit ≠ []) :
    (wavePop cfg st).2.toVisit.length < st.toVisit.length := by
  rw [wavePop_toVisit_length]
  have h1 : 1 ≤ st.toVisit.length := List.length_pos.mpr hne
  have h2 : 1 ≤ min (2 * cfg.threads) st.toVisit.length := by
    rw [le_min_iff]
    omega
  omega

theorem crawlLoop_zero (cb : Collab) (cfg : CrawlConfig) (st : CrawlState) :
    crawlLoop cb cfg 0 st = st := rfl

theorem crawlLoop_succ_of_ne {cb : Collab} {cfg : CrawlConfig}
    {st : CrawlState} (n : Nat) (h : st.toVisit ≠ []) :
    crawlLoop cb cfg (n + 1) st = crawlLoop cb cfg n (crawlWave cb cfg st) := by
  have he : crawlLoop cb cfg (n + 1) st =
      if st.toVisit = [] then st
      else crawlLoop cb cfg n (crawlWave cb cfg st) := rfl
  rw [he, if_neg h]

theorem crawlWave_vislen_of_ge {cb : Collab} {cfg : CrawlConfig}
    {st : CrawlState} (hd : 1 ≤ cfg.maxDepth)
    (hge : cfg.maxDepth ≤ st.visited.length) :
    cfg.maxDepth ≤ (crawlWave cb cfg st).visited.length := by
  rw [crawlWave_eq_pop_of_ge hd hge]
  exact hge

/-- Once the depth budget is exhausted, every wave strictly drains the
pending set and the loop reaches empty. -/
theorem crawl_drain (cb : Collab) (cfg : CrawlConfig) (hd : 1 ≤ cfg.maxDepth)
    (ht : 1 ≤ cfg.threads) :
    ∀ (B : Nat) (st : CrawlState), cfg.maxDepth ≤ st.visited.length →
      st.toVisit.length ≤ B →
      ∃ n, (crawlLoop cb cfg n st).toVisit = [] := by
  intro B
  induction B with
  | zero =>
    intro st _ hB
    exact ⟨0, List.eq_nil_of_length_eq_zero (Nat.le_zero.mp hB)⟩
  | succ B ih =>
    intro st hge hB
    by_cases hnil : st.toVisit = []
    · exact ⟨0, hnil⟩
    · have hw : crawlWave cb cfg st = (wavePop cfg st).2 :=
        crawlWave_eq_pop_of_ge hd hge
      have hlt := @wavePop_toVisit_lt cfg st ht hnil
      obtain ⟨n, hn⟩ := ih (crawlWave cb cfg st)
        (by rw [hw]; exact hge) (by rw [hw]; omega)
      exact ⟨n + 1, by rw [crawlLoop_succ_of_ne n hnil]; exact hn⟩

/-- The crawl loop reaches an empty pending set from every state. -/
theorem crawl_reaches_empty (cb : Collab) (cfg : CrawlConfig)
    (hd : 1 ≤ cfg.maxDepth) (ht : 1 ≤ cfg.threads) :
    ∀ (A B : Nat) (st : CrawlState),
      cfg.maxDepth - st.visited.length ≤ A → st.toVisit.length ≤ B →
      ∃ n, (crawlLoop cb cfg n st).toVisit = [] := by
  intro A
  induction A with
  | zero =>
    intro B st hA hB
    exact crawl_drain cb cfg hd ht B st (by omega) hB
  | succ A ihA =>
    intro B
    induction B with
    | zero =>
      intro st hA hB
      exact ⟨0, List.eq_nil_of_length_eq_zero (Nat.le_zero.mp hB)⟩
    | succ B ihB =>
      intro st hA hB
      by_cases hnil : st.toVisit = []
      · exact ⟨0, hnil⟩
      · rcases foldl_pp_cases cb cfg hd (wavePop cfg st).1 (wavePop cfg st).2 with
          heq | ⟨hlt, hltd⟩
        · have hw : crawlWave cb cfg st = (wavePop cfg st).2 := heq
          have hlt2 := @wavePop_toVisit_lt cfg st ht hnil
          obtain ⟨n, hn⟩ := ihB (crawlWave cb cfg st)
            (by rw [hw]; exact hA) (by rw [hw]; omega)
          exact ⟨n + 1, by rw [crawlLoop_succ_of_ne n hnil]; exact hn⟩
        · have hwlt : st.visited.length < (crawlWave cb cfg st).visited.length :=
            hlt
          have hwd : st.visited.length < cfg.maxDepth := hltd
          obtain ⟨n, hn⟩ := ihA (crawlWave cb cfg st).toVisit.length
            (crawlWave cb cfg st) (by omega) (le_refl _)
          exact ⟨n + 1, by rw [crawlLoop_succ_of_ne n hnil]; exact hn⟩

/-! ## Page-log (guard-pass) invariant -/

theorem processPageBody_pageLog (cb : Collab) (cfg : CrawlConfig)
    (st : CrawlState) (url html : String)
    (resources : List (String × List String)) (urt : String)
    (vh pdfSig : Bool) (links : List String) :
    (processPageBody cb cfg st url html resources urt vh pdfSig links).pageLog =
      st.pageLog := by
  unfold processPageBody
  dsimp only
  split
  · exact (downloadFile_fields _ _ _ _).2.2.1
  split
  · rfl
  · have hA : (if html ≠ "" then
        (if vh then saveHtml cb st url html
         else (downloadFile cb st url "documents").2) else st).pageLog =
        st.pageLog := by
      split
      · split
        · exact (saveHtml_fields _ _ _ _).2.2.1
        · exact (downloadFile_fields _ _ _ _).2.2.1
      · rfl
    split
    · rw [processLinks_pageLog]
      split
      · rw [processResources_pageLog]
        exact hA
      · exact hA
    · split
      · rw [processResources_pageLog]
        exact hA
      · exact hA

theorem pagelog_inv_processPage (cb : Collab) (cfg : CrawlConfig)
    (st : CrawlState) (url : String)
    (h : st.pageLog.Nodup ∧ ∀ u ∈ st.pageLog, u ∈ st.visited) :
    (processPage cb cfg st url).pageLog.Nodup ∧
    ∀ u ∈ (processPage cb cfg st url).pageLog,
      u ∈ (processPage cb cfg st url).visited := by
  cases hg : shouldProcess cfg st url with
  | false =>
    rw [processPage_guard_false hg]
    exact h
  | true =>
    rw [processPage_guard_true hg]
    unfold processPageCore
    have hlog := processPageBody_pageLog cb cfg
      { st with visited := addS st.visited url, pageLog := st.pageLog ++ [url] }
      url (cb.fetch url).1 (cb.fetch url).2 (getFileType url)
      (isValidHtmlB (cb.fetch url).1) (strStarts (cb.fetch url).1 "%PDF-")
      (pageLinks url (cb.hrefs url (cb.fetch url).1))
    have hvis := (evolves_processPageBody cb cfg
      { st with visited := addS st.visited url, pageLog := st.pageLog ++ [url] }
      url (cb.fetch url).1 (cb.fetch url).2 (getFileType url)
      (isValidHtmlB (cb.fetch url).1) (strStarts (cb.fetch url).1 "%PDF-")
      (pageLinks url (cb.hrefs url (cb.fetch url).1)) (mem_addS_self _ _)).1
    have hnv : url ∉ st.visited := by
      have hc := shouldProcess_not_visited hg
      rw [contains_eq_decide_mem] at hc
      simpa using hc
    have hnl : url ∉ st.pageLog := fun hc => hnv (h.2 url hc)
    constructor
    · rw [hlog]
      simp only [List.nodup_append, List.nodup_cons, List.nodup_nil,
        List.disjoint_singleton]
      exact ⟨h.1, by simp, by simpa using hnl⟩
    · intro u hu
      rw [hlog] at hu
      apply hvis
      rcases List.mem_append.mp hu with h' | h'
      · exact mem_addS_of_mem url (h.2 u h')
      · rw [List.mem_singleton.mp h']
        exact mem_addS_self _ _

theorem pagelog_inv_crawlWave (cb : Collab) (cfg : CrawlConfig)
    (st : CrawlState)
    (h : st.pageLog.Nodup ∧ ∀ u ∈ st.pageLog, u ∈ st.visited) :
    (crawlWave cb cfg st).pageLog.Nodup ∧
    ∀ u ∈ (crawlWave cb cfg st).pageLog, u ∈ (crawlWave cb cfg st).visited := by
  unfold crawlWave
  exact foldl_preserve (processPage cb cfg)
    (fun s => s.pageLog.Nodup ∧ ∀ u ∈ s.pageLog, u ∈ s.visited)
    (fun s x hp => pagelog_inv_processPage cb cfg s x hp)
    (wavePop cfg st).1 (wavePop cfg st).2 h

theorem pagelog_inv_crawlLoop (cb : Collab) (cfg : CrawlConfig) :
    ∀ (n : Nat) (st : CrawlState),
      st.pageLog.Nodup → (∀ u ∈ st.pageLog, u ∈ st.visited) →
      (crawlLoop cb cfg n st).pageLog.Nodup ∧
      ∀ u ∈ (crawlLoop cb cfg n st).pageLog,
        u ∈ (crawlLoop cb cfg n st).visited := by
  intro n
  induction n with
  | zero => intro st h1 h2; exact ⟨h1, h2⟩
  | succ n ih =>
    intro st h1 h2
    unfold crawlLoop
    split
    · exact ⟨h1, h2⟩
    · have hw := pagelog_inv_crawlWave cb cfg st ⟨h1, h2⟩
      exact ih (crawlWave cb cfg st) hw.1 hw.2

/-! ## Claim C1: no URL is processed past the entry guard twice -/

/-- C1, amended.  The visited-set claim happens at the worker's entry,
not in the scheduler: `process_page` records the URL as visited
immediately after passing its not-yet-visited guard; because the
scheduler waits for the whole wave before dispatching the next and
batch/pending sets deduplicate, the run-long log of guard passes never
repeats a URL (at any thread-pool width), and every logged URL is in
the visited set from the moment it is logged. -/
theorem no_url_processed_twice (cb : Collab) (cfg : CrawlConfig) (n : Nat)
    (st : CrawlState) (h1 : st.pageLog.Nodup)
    (h2 : ∀ u ∈ st.pageLog, u ∈ st.visited) :
    (crawlLoop cb cfg n st).pageLog.Nodup ∧
    ∀ u ∈ (crawlLoop cb cfg n st).pageLog,
      u ∈ (crawlLoop cb cfg n st).visited :=
  pagelog_inv_crawlLoop cb cfg n st h1 h2

/-- C1 witness: the fixture crawl's guard-pass log is duplicate-free. -/
theorem no_url_processed_twice_witness :
    (crawlLoop collabMixed cfgOpen 5 stSeed).pageLog.Nodup ∧
    ∀ u ∈ (crawlLoop collabMixed cfgOpen 5 stSeed).pageLog,
      u ∈ (crawlLoop collabMixed cfgOpen 5 stSeed).visited :=
  no_url_processed_twice collabMixed cfgOpen 5 stSeed (by decide) (by decide)

/-! ## Claim C9: the wave loop terminates -/

/-- C9: with a positive depth budget and a positive thread count,
`_should_process_url` passes only while `|visited| < max_depth`; once
`|visited| ≥ max_depth` every guard fails, a nonempty wave strictly
shrinks the pending set, and the crawl loop reaches an empty pending
set from every state. -/
theorem crawl_wave_loop_terminates (cb : Collab) (cfg : CrawlConfig)
    (hd : 1 ≤ cfg.maxDepth) (ht : 1 ≤ cfg.threads) :
    (∀ (st : CrawlState) (u : String), shouldProcess cfg st u = true →
      st.visited.length < cfg.maxDepth) ∧
    (∀ (st : CrawlState) (u : String), cfg.maxDepth ≤ st.visited.length →
      shouldProcess cfg st u = false) ∧
    (∀ st : CrawlState, cfg.maxDepth ≤ st.visited.length → st.toVisit ≠ [] →
      (crawlWave cb cfg st).toVisit.length < st.toVisit.length) ∧
    (∀ st : CrawlState, ∃ n, (crawlLoop cb cfg n st).toVisit = []) := by
  refine ⟨fun st u h => shouldProcess_vislen_lt hd h,
    fun st u hge => shouldProcess_false_of_ge hd hge u, ?_, ?_⟩
  · intro st hge hne
    rw [crawlWave_eq_pop_of_ge hd hge]
    exact wavePop_toVisit_lt ht hne
  · intro st
    exact crawl_reaches_empty cb cfg hd ht _ _ st (le_refl _) (le_refl _)

/-- C9 witness: the fixture crawl terminates. -/
theorem crawl_wave_loop_terminates_witness :
    1 ≤ cfgOpen.maxDepth ∧ 1 ≤ cfgOpen.threads ∧
    ∃ n, (crawlLoop collabMixed cfgOpen n stSeed).toVisit = [] :=
  ⟨by decide, by decide,
   (crawl_wave_loop_terminates collabMixed cfgOpen (by decide)
     (by decide)).2.2.2 stSeed⟩

/-! ## No re-queue of visited URLs -/

theorem nr_processLink (cfg : CrawlConfig) (st : CrawlState) (l u : String)
    (h : u ∈ st.visited ∧ u ∉ st.toVisit) :
    u ∈ (processLink cfg st l).visited ∧ u ∉ (processLink cfg st l).toVisit := by
  unfold processLink
  split
  · exact h
  split
  · next hsp =>
    refine ⟨h.1, ?_⟩
    intro hmem
    rcases List.mem_append.mp hmem with h' | h'
    · exact h.2 h'
    · have hl : u = l := List.mem_singleton.mp h'
      subst hl
      have hc := shouldProcess_not_visited hsp
      rw [contains_eq_decide_mem] at hc
      have hnm : u ∉ st.visited := by simpa using hc
      exact hnm h.1
  · exact h

theorem nr_processLinks (cfg : CrawlConfig) (links : List String)
    (st : CrawlState) (u : String) (h : u ∈ st.visited ∧ u ∉ st.toVisit) :
    u ∈ (processLinks cfg st links).visited ∧
    u ∉ (processLinks cfg st links).toVisit := by
  unfold processLinks
  exact foldl_preserve (processLink cfg)
    (fun s => u ∈ s.visited ∧ u ∉ s.toVisit)
    (fun s l hp => nr_processLink cfg s l u hp) links st h

theorem nr_processPageBody (cb : Collab) (cfg : CrawlConfig)
    (st : CrawlState) (url html : String)
    (resources : List (String × List String)) (urt : String)
    (vh pdfSig : Bool) (links : List String) (u : String)
    (h : u ∈ st.visited ∧ u ∉ st.toVisit) :
    u ∈ (processPageBody cb cfg st url html resources urt vh pdfSig links).visited ∧
    u ∉ (processPageBody cb cfg st url html resources urt vh pdfSig links).toVisit := by
  unfold processPageBody
  dsimp only
  split
  · rw [(downloadFile_fields _ _ _ _).1, (downloadFile_fields _ _ _ _).2.1]
    exact h
  split
  · exact h
  · have hA : u ∈ (if html ≠ "" then
        (if vh then saveHtml cb st url html
         else (downloadFile cb st url "documents").2) else st).visited ∧
        u ∉ (if html ≠ "" then
        (if vh then saveHtml cb st url html
         else (downloadFile cb st url "documents").2) else st).toVisit := by
      split
      · split
        · rw [(saveHtml_fields _ _ _ _).1, (saveHtml_fields _ _ _ _).2.1]
          exact h
        · rw [(downloadFile_fields _ _ _ _).1, (downloadFile_fields _ _ _ _).2.1]
          exact h
      · exact h
    have hB : ∀ s : CrawlState, u ∈ s.visited ∧ u ∉ s.toVisit →
        u ∈ (if cfg.resourcesFlag then processResources cb s resources else s).visited ∧
        u ∉ (if cfg.resourcesFlag then processResources cb s resources else s).toVisit := by
      intro s hs
      split
      · exact ⟨(evolves_processResources cb resources s).1 u hs.1,
          by rw [processResources_toVisit]; exact hs.2⟩
      · exact hs
    split
    · exact nr_processLinks cfg links _ u (hB _ hA)
    · exact hB _ hA

theorem nr_processPage (cb : Collab) (cfg : CrawlConfig) (st : CrawlState)
    (url u : String) (h : u ∈ st.visited ∧ u ∉ st.toVisit) :
    u ∈ (processPage cb cfg st url).visited ∧
    u ∉ (processPage cb cfg st url).toVisit := by
  cases hg : shouldProcess cfg st url with
  | false =>
    rw [processPage_guard_false hg]
    exact h
  | true =>
    rw [processPage_guard_true hg]
    unfold processPageCore
    exact nr_processPageBody cb cfg _ url _ _ _ _ _ _ u
      ⟨mem_addS_of_mem url h.1, h.2⟩

theorem nr_crawlWave (cb : Collab) (cfg : CrawlConfig) (st : CrawlState)
    (u : String) (h : u ∈ st.visited ∧ u ∉ st.toVisit) :
    u ∈ (crawlWave cb cfg st).visited ∧ u ∉ (crawlWave cb cfg st).toVisit := by
  unfold crawlWave
  refine foldl_preserve (processPage cb cfg)
    (fun s => u ∈ s.visited ∧ u ∉ s.toVisit)
    (fun s x hp => nr_processPage cb cfg s x u hp)
    (wavePop cfg st).1 (wavePop cfg st).2 ⟨h.1, ?_⟩
  intro hd
  exact h.2 (List.drop_subset _ _ hd)

theorem nr_crawlLoop (cb : Collab) (cfg : CrawlConfig) :
    ∀ (n : Nat) (st : CrawlState) (u : String),
      u ∈ st.visited → u ∉ st.toVisit →
      u ∈ (crawlLoop cb cfg n st).visited ∧
      u ∉ (crawlLoop cb cfg n st).toVisit := by
  intro n
  induction n with
  | zero => intro st u h1 h2; exact ⟨h1, h2⟩
  | succ n ih =>
    intro st u h1 h2
    unfold crawlLoop
    split
    · exact ⟨h1, h2⟩
    · have hw := nr_crawlWave cb cfg st u ⟨h1, h2⟩
      exact ih (crawlWave cb cfg st) u hw.1 hw.2

/-! ## Claim C2: frontier invariants -/

/-- C2, amended.  Of the claimed invariants, these hold throughout a
run: a URL in `visited` that is not pending is never afterwards
inserted into `pending`; every per-type resource counter is
monotonically non-decreasing; and every URL in `failed` at the end
either was failed already or is in the final `visited` set (so with
retry disabled, `failed ⊆ visited`).  `visited ∩ pending = ∅` is *not*
an invariant (see the counterexample), and `failed ⊆ visited` fails for
retry-preloaded URLs (see C3). -/
theorem frontier_invariants (cb : Collab) (cfg : CrawlConfig) (n : Nat)
    (st : CrawlState) :
    (∀ u, u ∈ st.visited → u ∉ st.toVisit →
      u ∈ (crawlLoop cb cfg n st).visited ∧
      u ∉ (crawlLoop cb cfg n st).toVisit) ∧
    (st.countHtml ≤ (crawlLoop cb cfg n st).countHtml ∧
     st.countImages ≤ (crawlLoop cb cfg n st).countImages ∧
     st.countDocuments ≤ (crawlLoop cb cfg n st).countDocuments ∧
     st.countVideos ≤ (crawlLoop cb cfg n st).countVideos) ∧
    (∀ u, u ∈ (crawlLoop cb cfg n st).failed →
      u ∈ st.failed ∨ u ∈ (crawlLoop cb cfg n st).visited) := by
  have he := evolves_crawlLoop cb cfg n st
  exact ⟨fun u h1 h2 => nr_crawlLoop cb cfg n st u h1 h2,
    ⟨he.2.2.2.1, he.2.2.2.2.1, he.2.2.2.2.2.1, he.2.2.2.2.2.2.1⟩,
    he.2.2.1⟩

/-- C2 witness: the invariants instantiated on the fixture crawl, with
the never-requeued URL evaluated concretely. -/
theorem frontier_invariants_witness :
    stSeed.countHtml ≤ (crawlLoop collabMixed cfgOpen 5 stSeed).countHtml ∧
    ("http://s.com/" ∈ stSeed.visited → "http://s.com/" ∉ stSeed.toVisit →
      "http://s.com/" ∈ (crawlLoop collabMixed cfgOpen 5 stSeed).visited) :=
  ⟨(frontier_invariants collabMixed cfgOpen 5 stSeed).2.1.1,
   fun h1 h2 =>
     ((frontier_invariants collabMixed cfgOpen 5 stSeed).1 "http://s.com/" h1 h2).1⟩

/-! ## Resource processing: visited-before-download and at-most-once -/

theorem processResourceList_mem_visited (cb : Collab) (rtype : String) :
    ∀ (us : List String) (st : CrawlState) (u : String), u ∈ us →
      u ∈ (List.foldl (processResource cb rtype) st us).visited := by
  intro us
  induction us with
  | nil => intro st u h; exact absurd h (List.not_mem_nil u)
  | cons v rest ih =>
    intro st u h
    rw [List.foldl_cons]
    rcases List.mem_cons.mp h with rfl | h'
    · have h1 : u ∈ (processResource cb rtype st u).visited := by
        unfold processResource
        split
        · next hc =>
          rw [contains_eq_decide_mem] at hc
          simpa using hc
        · rw [(downloadFile_fields _ _ _ _).1]
          exact mem_addS_self _ _
      exact (evolves_foldl (processResource cb rtype)
        (evolves_processResource cb rtype) rest _).1 u h1
    · exact ih _ u h'

theorem processResources_mem_visited (cb : Collab) :
    ∀ (res : List (String × List String)) (st : CrawlState) (t : String)
      (us : List String) (u : String), (t, us) ∈ res → u ∈ us →
      u ∈ (processResources cb st res).visited := by
  intro res
  induction res with
  | nil => intro st t us u h _; exact absurd h (List.not_mem_nil _)
  | cons p rest ih =>
    intro st t us u hmem hu
    unfold processResources
    rw [List.foldl_cons]
    rcases List.mem_cons.mp hmem with heq | h'
    · subst heq
      have h1 := processResourceList_mem_visited cb t us st u hu
      exact (evolves_foldl _ (evolves_processResPair cb) rest _).1 u h1
    · exact ih _ t us u h' hu

/-! ## Resource-log invariant (each resource download attempted once) -/

theorem rl_processResource (cb : Collab) (rtype : String) (st : CrawlState)
    (u : String) (h : st.resLog.Nodup ∧ ∀ v ∈ st.resLog, v ∈ st.visited) :
    (processResource cb rtype st u).resLog.Nodup ∧
    ∀ v ∈ (processResource cb rtype st u).resLog,
      v ∈ (processResource cb rtype st u).visited := by
  unfold processResource
  split
  · exact h
  · next hc =>
    have hnv : u ∉ st.visited := by
      rw [contains_eq_decide_mem] at hc
      simpa using hc
    have hnl : u ∉ st.resLog := fun hl => hnv (h.2 u hl)
    rw [(downloadFile_fields _ _ _ _).1, (downloadFile_fields _ _ _ _).2.2.2]
    constructor
    · simp only [List.nodup_append, List.nodup_cons, List.nodup_nil,
        List.disjoint_singleton]
      exact ⟨h.1, by simp, by simpa using hnl⟩
    · intro v hv
      rcases List.mem_append.mp hv with h' | h'
      · exact mem_addS_of_mem u (h.2 v h')
      · rw [List.mem_singleton.mp h']
        exact mem_addS_self _ _

theorem processResources_cons (cb : Collab) (st : CrawlState)
    (p : String × List String) (rest : List (String × List String)) :
    processResources cb st (p :: rest) =
      processResources cb (p.2.foldl (processResource cb p.1) st) rest := rfl

theorem rl_processResourceList (cb : Collab) (rtype : String) :
    ∀ (us : List String) (st : CrawlState),
      (st.resLog.Nodup ∧ ∀ v ∈ st.resLog, v ∈ st.visited) →
      ((List.foldl (processResource cb rtype) st us).resLog.Nodup ∧
       ∀ v ∈ (List.foldl (processResource cb rtype) st us).resLog,
         v ∈ (List.foldl (processResource cb rtype) st us).visited) := by
  intro us
  induction us with
  | nil => intro st h; exact h
  | cons u rest ih =>
    intro st h
    rw [List.foldl_cons]
    exact ih _ (rl_processResource cb rtype st u h)

theorem rl_processResources (cb : Collab)
    (res : List (String × List String)) :
    ∀ st : CrawlState,
      (st.resLog.Nodup ∧ ∀ v ∈ st.resLog, v ∈ st.visited) →
      ((processResources cb st res).resLog.Nodup ∧
       ∀ v ∈ (processResources cb st res).resLog,
         v ∈ (processResources cb st res).visited) := by
  induction res with
  | nil => intro st h; exact h
  | cons p rest ih =>
    intro st h
    rw [processResources_cons]
    exact ih _ (rl_processResourceList cb p.1 p.2 st h)

theorem rl_processPageBody (cb : Collab) (cfg : CrawlConfig)
    (st : CrawlState) (url html : String)
    (resources : List (String × List String)) (urt : String)
    (vh pdfSig : Bool) (links : List String)
    (h : st.resLog.Nodup ∧ ∀ v ∈ st.resLog, v ∈ st.visited) :
    (processPageBody cb cfg st url html resources urt vh pdfSig links).resLog.Nodup ∧
    ∀ v ∈ (processPageBody cb cfg st url html resources urt vh pdfSig links).resLog,
      v ∈ (processPageBody cb cfg st url html resources urt vh pdfSig links).visited := by
  unfold processPageBody
  dsimp only
  split
  · rw [(downloadFile_fields _ _ _ _).1, (downloadFile_fields _ _ _ _).2.2.2]
    exact h
  split
  · exact h
  · have hA : (if html ≠ "" then
        (if vh then saveHtml cb st url html
         else (downloadFile cb st url "documents").2) else st).resLog.Nodup ∧
        ∀ v ∈ (if html ≠ "" then
        (if vh then saveHtml cb st url html
         else (downloadFile cb st url "documents").2) else st).resLog,
        v ∈ (if html ≠ "" then
        (if vh then saveHtml cb st url html
         else (downloadFile cb st url "documents").2) else st).visited := by
      split
      · split
        · rw [(saveHtml_fields _ _ _ _).1, (saveHtml_fields _ _ _ _).2.2.2]
          exact h
        · rw [(downloadFile_fields _ _ _ _).1, (downloadFile_fields _ _ _ _).2.2.2]
          exact h
      · exact h
    have hB : ∀ s : CrawlState,
        (s.resLog.Nodup ∧ ∀ v ∈ s.resLog, v ∈ s.visited) →
        ((if cfg.resourcesFlag then processResources cb s resources else s).resLog.Nodup ∧
         ∀ v ∈ (if cfg.resourcesFlag then processResources cb s resources else s).resLog,
           v ∈ (if cfg.resourcesFlag then processResources cb s resources else s).visited) := by
      intro s hs
      split
      · exact rl_processResources cb resources s hs
      · exact hs
    split
    · have hC := hB _ hA
      refine ⟨?_, ?_⟩
      · rw [processLinks_resLog]
        exact hC.1
      · intro v hv
        rw [processLinks_resLog] at hv
        rw [processLinks_visited]
        exact hC.2 v hv
    · exact hB _ hA

theorem rl_processPage (cb : Collab) (cfg : CrawlConfig) (st : CrawlState)
    (url : String)
    (h : st.resLog.Nodup ∧ ∀ v ∈ st.resLog, v ∈ st.visited) :
    (processPage cb cfg st url).resLog.Nodup ∧
    ∀ v ∈ (processPage cb cfg st url).resLog,
      v ∈ (processPage cb cfg st url).visited := by
  cases hg : shouldProcess cfg st url with
  | false =>
    rw [processPage_guard_false hg]
    exact h
  | true =>
    rw [processPage_guard_true hg]
    unfold processPageCore
    refine rl_processPageBody cb cfg _ url _ _ _ _ _ _ ⟨h.1, ?_⟩
    intro v hv
    exact mem_addS_of_mem url (h.2 v hv)

theorem rl_crawlLoop (cb : Collab) (cfg : CrawlConfig) :
    ∀ (n : Nat) (st : CrawlState),
      st.resLog.Nodup → (∀ v ∈ st.resLog, v ∈ st.visited) →
      (crawlLoop cb cfg n st).resLog.Nodup ∧
      ∀ v ∈ (crawlLoop cb cfg n st).resLog,
        v ∈ (crawlLoop cb cfg n st).visited := by
  intro n
  induction n with
  | zero => intro st h1 h2; exact ⟨h1, h2⟩
  | succ n ih =>
    intro st h1 h2
    unfold crawlLoop
    split
    · exact ⟨h1, h2⟩
    · have hw : (crawlWave cb cfg st).resLog.Nodup ∧
          ∀ v ∈ (crawlWave cb cfg st).resLog,
            v ∈ (crawlWave cb cfg st).visited := by
        unfold crawlWave
        exact foldl_preserve (processPage cb cfg)
          (fun s => s.resLog.Nodup ∧ ∀ v ∈ s.resLog, v ∈ s.visited)
          (fun s x hp => rl_processPage cb cfg s x hp)
          (wavePop cfg st).1 (wavePop cfg st).2 ⟨h1, h2⟩
      exact ih (crawlWave cb cfg st) hw.1 hw.2

/-! ## `download_file` counter and failure facts -/

theorem dlStep_counts (st : CrawlState) (url rtype path path2 : String)
    (success : Bool) (vd : Bool × Bool) :
    countsSum (dlStep st url rtype path path2 success vd).2 ≠ countsSum st →
    (dlStep st url rtype path path2 success vd).1 = true ∧ success = true ∧
    st.fs.contains path = false ∧ vd.1 = true := by
  unfold dlStep
  split
  · intro h
    exact absurd rfl h
  · next hc =>
    split
    · next hs =>
      split
      · next hv => exact fun _ => ⟨rfl, hs, by simpa using hc, hv⟩
      · intro h
        exact absurd rfl h
    · intro h
      exact absurd rfl h

theorem dlStep_fail_mem_failed (st : CrawlState) (url rtype path path2 : String)
    (success : Bool) (vd : Bool × Bool) :
    (dlStep st url rtype path path2 success vd).1 = false →
    url ∈ (dlStep st url rtype path path2 success vd).2.failed := by
  unfold dlStep
  split
  · intro h
    exact absurd h (by simp)
  split
  · split
    · intro h
      exact absurd h (by simp)
    · intro _
      exact mem_addS_self _ _
  · intro _
    exact mem_addS_self _ _

/-! ## Claim C10: resource handling invariants -/

/-- C10: every resource URL extracted from a page is in `visited` after
`_process_resources` runs (it is inserted before the download is
attempted); the run-long log of download attempts never repeats a URL,
however many pages reference it; the per-type counters change only on a
successful, validated, fresh download; a failed `download_file` call
records its URL in `failed`; and membership in `visited` and `failed`
is never lost for the rest of the run. -/
theorem resource_processing_invariants (cb : Collab) (cfg : CrawlConfig) :
    (∀ (st : CrawlState) (res : List (String × List String)) (t : String)
        (us : List String) (u : String), (t, us) ∈ res → u ∈ us →
        u ∈ (processResources cb st res).visited) ∧
    (∀ (n : Nat) (st : CrawlState), st.resLog.Nodup →
        (∀ v ∈ st.resLog, v ∈ st.visited) →
        (crawlLoop cb cfg n st).resLog.Nodup) ∧
    (∀ (st : CrawlState) (url rtype0 : String),
        countsSum (downloadFile cb st url rtype0).2 ≠ countsSum st →
        (downloadFile cb st url rtype0).1 = true ∧
        cb.netSuccess url = true ∧
        st.fs.contains (dlPath cb url rtype0) = false ∧
        (validateFile (cb.fileData url) (dlType url rtype0)
          (lowerStr (extOf (dlFinalPath cb url rtype0)))).1 = true) ∧
    (∀ (st : CrawlState) (url rtype0 : String),
        (downloadFile cb st url rtype0).1 = false →
        url ∈ (downloadFile cb st url rtype0).2.failed) ∧
    (∀ (n : Nat) (st : CrawlState) (u : String), u ∈ st.visited →
        u ∈ (crawlLoop cb cfg n st).visited) ∧
    (∀ (n : Nat) (st : CrawlState) (u : String), u ∈ st.failed →
        u ∈ (crawlLoop cb cfg n st).failed) := by
  refine ⟨?_, ?_, ?_, ?_, ?_, ?_⟩
  · intro st res t us u hmem hu
    exact processResources_mem_visited cb res st t us u hmem hu
  · intro n st h1 h2
    exact (rl_crawlLoop cb cfg n st h1 h2).1
  · intro st url rtype0 h
    exact dlStep_counts st url _ _ _ _ _ h
  · intro st url rtype0 h
    exact dlStep_fail_mem_failed st url _ _ _ _ _ h
  · intro n st u h
    exact (evolves_crawlLoop cb cfg n st).1 u h
  · intro n st u h
    exact (evolves_crawlLoop cb cfg n st).2.1 u h

/-- C10 witness: the invariants instantiated on concrete inputs — a
shared image resource lands in `visited`, the fixture crawl's download
log is duplicate-free, the fixture image download increments a counter
only as a fresh validated success, and an undersized download puts its
URL in `failed`. -/
theorem resource_processing_invariants_witness :
    "http://s.com/i.jpg" ∈ (processResources collabMixed stSeed
      [("images", ["http://s.com/i.jpg"])]).visited ∧
    (crawlLoop collabMixed cfgOpen 5 stSeed).resLog.Nodup ∧
    ((downloadFile collabMixed stSeed "http://s.com/i.jpg" "images").1 = true ∧
      collabMixed.netSuccess "http://s.com/i.jpg" = true ∧
      stSeed.fs.contains (dlPath collabMixed "http://s.com/i.jpg" "images") =
        false ∧
      (validateFile (collabMixed.fileData "http://s.com/i.jpg")
        (dlType "http://s.com/i.jpg" "images")
        (lowerStr (extOf (dlFinalPath collabMixed "http://s.com/i.jpg"
          "images")))).1 = true) ∧
    "http://s.com/pic.jpg" ∈ (downloadFile collabTinyImage stSeed
      "http://s.com/pic.jpg" "images").2.failed :=
  ⟨(resource_processing_invariants collabMixed cfgOpen).1 stSeed
     [("images", ["http://s.com/i.jpg"])] "images" ["http://s.com/i.jpg"]
     "http://s.com/i.jpg" (by decide) (by decide),
   (resource_processing_invariants collabMixed cfgOpen).2.1 5 stSeed (by decide)
     (by decide),
   (resource_processing_invariants collabMixed cfgOpen).2.2.1 stSeed
     "http://s.com/i.jpg" "images" (by decide),
   (resource_processing_invariants collabTinyImage cfgOpen).2.2.2.1 stSeed
     "http://s.com/pic.jpg" "images" (by decide)⟩

end WebGrabber
